import Mathlib

/-!
# Subtitle2 editor (`game/tools/subtitles2/subtitle2_editor.cpp`)

A shallow embedding of the editing logic of `Subtitle2Editor`.

* Every ImGui widget call is replaced by the value it hands back during one
  pass (one frame): the operator's input is an explicit argument of each
  function.  Calls that only render (`Text`, `PushStyleColor`, `SameLine`, ...)
  have no effect on the editor state and are left out.
* `std::unordered_map` / `std::map` are association lists in iteration order.
* `float` frame numbers are rationals: every finite float is a rational and the
  comparisons used by the editor (`<`, `==`) agree with the rational order.
* A reference parameter (`Subtitle2Scene& scene`) is a value passed in and
  handed back.
* `std::out_of_range` from `.at(...)` and a null `shared_ptr` dereference are
  the result `none`.
-/

namespace Subtitle2

/-! ## Data model -/

/-- One timed subtitle line (`Subtitle2Line`; the field `end` is spelled `end_`). -/
structure Subtitle2Line where
  start : ℚ
  end_ : ℚ
  text : String
  speaker : String
  offscreen : Bool
deriving DecidableEq

/-- Modelled from the spec: `Subtitle2Line::operator<` is declared in
`subtitles2_deser.h`, which is not part of the sources at hand.  The spec gives
the ordering key of a line as `(start, end)` ascending, so `a < b` compares
`start` first and `end` on equal `start`. -/
def Subtitle2Line.lt (a b : Subtitle2Line) : Bool :=
  decide (a.start < b.start) || (decide (a.start = b.start) && decide (a.end_ < b.end_))

/-- Non-decreasing order of two lines by the key `(start, end)`. -/
def keyLE (a b : Subtitle2Line) : Prop :=
  a.start < b.start ∨ (a.start = b.start ∧ a.end_ ≤ b.end_)

instance (a b : Subtitle2Line) : Decidable (keyLE a b) :=
  inferInstanceAs (Decidable (_ ∨ _))

/-- The line sequence is sorted non-decreasing by `(start, end)`. -/
def SortedByKey (ls : List Subtitle2Line) : Prop := ls.Pairwise keyLE

instance (ls : List Subtitle2Line) : Decidable (SortedByKey ls) :=
  inferInstanceAs (Decidable (ls.Pairwise keyLE))

/-- A scene (`Subtitle2Scene`): its vector of lines. -/
structure Subtitle2Scene where
  lines : List Subtitle2Line
deriving DecidableEq

/-- The contract of `std::sort(first, last)` on a vector of lines: the result
is a rearrangement of the input in which no element is `operator<` an earlier
one.  The standard leaves the relative order of equivalent elements open, so
the algorithm is a parameter of the embedding. -/
structure StdSort where
  sort : List Subtitle2Line → List Subtitle2Line
  perm : ∀ l, (sort l).Perm l
  sorted : ∀ l, (sort l).Pairwise (fun a b => b.lt a = false)

/-- The text conversions of a font bank (`GameTextFontBank`), external to the
editor.  `convert_game_to_utf8 s` stands for
`font->convert_game_to_utf8(s.c_str())`. -/
structure GameTextFontBank where
  convert_game_to_utf8 : String → String
  convert_utf8_to_game : String → Bool → String

/-! ### `std::unordered_map<std::string, V>` as an association list -/

/-- A string-keyed map, in iteration order. -/
abbrev UMap (V : Type) := List (String × V)

/-- Models `m.count(k)`. -/
def UMap.count {V : Type} (m : UMap V) (k : String) : Nat :=
  if (m.lookup k).isSome then 1 else 0

/-- Models `m.at(k)`; `none` stands for `std::out_of_range`. -/
def UMap.at {V : Type} (m : UMap V) (k : String) : Option V := m.lookup k

/-- Models `m.insert({k, v})`: nothing happens when the key is present. -/
def UMap.insert {V : Type} (m : UMap V) (k : String) (v : V) : UMap V :=
  if m.count k = 0 then m ++ [(k, v)] else m

/-- Models `m.erase(k)`. -/
def UMap.erase {V : Type} (m : UMap V) (k : String) : UMap V :=
  m.filter (fun p => p.1 ≠ k)

/-- Models `m.at(k) = v` for a key that is present. -/
def UMap.assign {V : Type} (m : UMap V) (k : String) (v : V) : UMap V :=
  m.map (fun p => if p.1 = k then (k, v) else p)

/-- A language bank (`GameSubtitle2Bank`): the fields the editor logic reads or
writes. -/
structure GameSubtitle2Bank where
  text_version : Nat
  scenes : UMap Subtitle2Scene
  speakers : UMap String

/-- Modelled from the spec: `GameSubtitle2Bank::add_scene` is defined outside
the sources at hand.  The spec: "fails with `DuplicateScene` if
`sceneExists(bankId, name)`; otherwise inserts".  Failure is `none`. -/
def GameSubtitle2Bank.add_scene (b : GameSubtitle2Bank) (name : String)
    (scene : Subtitle2Scene) : Option GameSubtitle2Bank :=
  if b.scenes.count name > 0 then none
  else some { b with scenes := b.scenes.insert name scene }

/-- What the editor gets from outside: the font bank of each text version
(`get_font_bank`) and the `std::sort` of the standard library. -/
structure Env where
  get_font_bank : Nat → GameTextFontBank
  std_sort : StdSort

/-- The members of `Subtitle2Editor` that the editing logic uses.
`m_current_scene` is a `Subtitle2Scene*` into the scene map of one bank: the
pointee is named by the bank's key and the scene's key; `none` is `nullptr`.
`m_filter_placeholder` is a constant of the header. -/
structure Subtitle2Editor where
  m_banks : List (Int × GameSubtitle2Bank)
  m_current_language : Int
  m_base_language : Int
  m_current_scene : Option (Int × String)
  m_current_scene_name : String
  m_current_scene_frame : ℚ × ℚ
  m_current_scene_text : String
  m_current_scene_speaker : String
  m_current_scene_offscreen : Bool
  m_new_scene_name : String
  m_add_new_scene_as_current : Bool
  m_filter : String
  m_filter_placeholder : String
  m_speaker_names : List String

/-- Models `m_subtitle_db.m_banks.at(lang)` (and `m_banks[lang]` followed by a
dereference). -/
def Subtitle2Editor.bank (ed : Subtitle2Editor) (lang : Int) : Option GameSubtitle2Bank :=
  ed.m_banks.lookup lang

/-- Writes through the `shared_ptr` stored under `lang`. -/
def Subtitle2Editor.set_bank (ed : Subtitle2Editor) (lang : Int) (b : GameSubtitle2Bank) :
    Subtitle2Editor :=
  { ed with m_banks := ed.m_banks.map (fun p => if p.1 = lang then (lang, b) else p) }

/-- Models `Subtitle2Editor::is_scene_in_current_lang`. -/
def Subtitle2Editor.is_scene_in_current_lang (ed : Subtitle2Editor) (scene_name : String) :
    Option Bool :=
  match ed.bank ed.m_current_language with
  | none => none
  | some b => some (decide (b.scenes.count scene_name > 0))

/-! ## Operator input -/

/-- What the widgets of the new-line form return during one pass. -/
structure NewLineFormInput where
  /-- Result of `InputFloat2("Start and End Frame", ...)`: the edited pair, if edited. -/
  frame : Option (ℚ × ℚ)
  /-- Result of `BeginCombo("Speaker", ...)`. -/
  combo_open : Bool
  /-- Result of `Selectable(...)` for the speaker name at index `i`. -/
  selectable : Nat → Bool
  /-- Result of `InputText("Text", ...)`: the edited text, if edited. -/
  text : Option String
  /-- Whether `Checkbox("Offscreen?", ...)` was clicked. -/
  offscreen_click : Bool
  /-- Result of `Button("Add Text Entry")`. -/
  add_text_entry : Bool

/-- What the widgets of one line of a scene return during one pass. -/
structure LineInput where
  /-- Result of `TreeNode(...)` of the line. -/
  tree_open : Bool
  /-- Result of `InputFloat2("Start and End Frame", times, ...)`: the edited pair, if edited. -/
  times : Option (ℚ × ℚ)
  /-- Result of `BeginCombo("Speaker", ...)`. -/
  combo_open : Bool
  /-- Result of `Selectable(...)` for the speaker name at index `i`. -/
  selectable : Nat → Bool
  /-- Result of `InputText("Text", &linetext)`: the edited text, if edited. -/
  text : Option String
  /-- Whether `Checkbox("Offscreen?", &line->offscreen)` was clicked. -/
  offscreen_click : Bool
  /-- Result of `Button("Delete")`. -/
  delete : Bool

/-- Input to `draw_subtitle_options`: the form, and the widgets of the `k`-th
iteration of the line loop. -/
structure SubtitleOptionsInput where
  form : NewLineFormInput
  line : Nat → LineInput

/-- An edit widget: the edited value, or the old one. -/
def edited {α : Type} (inp : Option α) (old : α) : α := inp.getD old

/-- A `Checkbox`: a click flips the flag. -/
def checkbox (click : Bool) (v : Bool) : Bool := if click then !v else v

/-! ## `draw_new_cutscene_line_form` -/

/-- The body of the speaker combo (both in the form and in a line): the names
of `m_speaker_names` from index `i` on; names without an entry in the bank's
speaker map are skipped, a clicked `Selectable` stores its name. -/
def select_speaker (speakers : UMap String) (selectable : Nat → Bool) :
    Nat → List String → String → String
  | _, [], cur => cur
  | i, speaker_name :: rest, cur =>
    if speakers.count speaker_name = 0 then select_speaker speakers selectable (i + 1) rest cur
    else if selectable i then select_speaker speakers selectable (i + 1) rest speaker_name
    else select_speaker speakers selectable (i + 1) rest cur

/-- The form's fields after the widgets of one pass (lines 387-423): frame
pair, speaker, text, offscreen flag. -/
def form_fields (ed : Subtitle2Editor) (speakers : UMap String) (inp : NewLineFormInput) :
    Subtitle2Editor :=
  let frame := edited inp.frame ed.m_current_scene_frame
  let speaker0 :=
    if speakers.count ed.m_current_scene_speaker = 0 ∧ speakers.length > 0 then
      (speakers.head?.map Prod.fst).getD ed.m_current_scene_speaker
    else ed.m_current_scene_speaker
  let speaker :=
    if inp.combo_open then select_speaker speakers inp.selectable 0 ed.m_speaker_names speaker0
    else speaker0
  { ed with
    m_current_scene_frame := frame
    m_current_scene_speaker := speaker
    m_current_scene_text := edited inp.text ed.m_current_scene_text
    m_current_scene_offscreen := checkbox inp.offscreen_click ed.m_current_scene_offscreen }

/-- The guard of line 424: the entry cannot be added. -/
def form_invalid (ed : Subtitle2Editor) : Bool :=
  decide (ed.m_current_scene_frame.1 < 0) || decide (ed.m_current_scene_frame.2 < 0) ||
    ed.m_current_scene_text.isEmpty

/-- The line `emplace_back` constructs at lines 431-433. -/
def form_line (font : GameTextFontBank) (ed : Subtitle2Editor) : Subtitle2Line :=
  { start := ed.m_current_scene_frame.1
    end_ := ed.m_current_scene_frame.2
    text := font.convert_utf8_to_game ed.m_current_scene_text true
    speaker := ed.m_current_scene_speaker
    offscreen := ed.m_current_scene_offscreen }

/-- Models `Subtitle2Editor::draw_new_cutscene_line_form`.  `lines` is
`m_current_scene->lines` (the caller has checked `m_current_scene`). -/
def draw_new_cutscene_line_form (env : Env) (ed : Subtitle2Editor)
    (lines : List Subtitle2Line) (inp : NewLineFormInput) :
    Option (Subtitle2Editor × List Subtitle2Line) :=
  match ed.bank ed.m_current_language with
  | none => none
  | some bank =>
    let font := env.get_font_bank bank.text_version
    let ed1 := form_fields ed bank.speakers inp
    if form_invalid ed1 then some (ed1, lines)
    else if inp.add_text_entry then
      some (ed1, env.std_sort.sort (lines ++ [form_line font ed1]))
    else some (ed1, lines)

/-! ## `draw_subtitle_options` -/

/-- The line loop of `draw_subtitle_options` (lines 312-381) from the iterator's
position on.  `k` counts the iterations made so far (it picks the widgets'
results), `i` is the source's counter `i`: the number of lines in front of the
iterator, so that `scene.lines.size()` is `i + 1 + rest.length`.  The result is
the part of the vector from the iterator's position on. -/
def line_loop (font : GameTextFontBank) (speakers : UMap String) (speaker_names : List String)
    (inp : Nat → LineInput) : Nat → Nat → List Subtitle2Line → List Subtitle2Line
  | _, _, [] => []
  | k, i, line :: rest =>
    let times : ℚ × ℚ := (line.start, line.end_)
    let linetext := font.convert_game_to_utf8 line.text
    let speaker := line.speaker
    if (inp k).tree_open then
      let times := edited (inp k).times times
      let speaker :=
        if (inp k).combo_open then
          select_speaker speakers (inp k).selectable 0 speaker_names speaker
        else speaker
      let linetext := edited (inp k).text linetext
      let offscreen := checkbox (inp k).offscreen_click line.offscreen
      if i + 1 + rest.length > 1 ∧ (inp k).delete = true then
        line_loop font speakers speaker_names inp (k + 1) i rest
      else
        { start := times.1, end_ := times.2, text := font.convert_utf8_to_game linetext true,
          speaker := speaker, offscreen := offscreen } ::
          line_loop font speakers speaker_names inp (k + 1) (i + 1) rest
    else
      { start := times.1, end_ := times.2, text := font.convert_utf8_to_game linetext true,
        speaker := speaker, offscreen := line.offscreen } ::
        line_loop font speakers speaker_names inp (k + 1) (i + 1) rest

/-- Models `Subtitle2Editor::draw_subtitle_options`.  With `current_scene` the
argument `scene` is `*m_current_scene`, the scene the form appends to. -/
def draw_subtitle_options (env : Env) (ed : Subtitle2Editor) (scene : Subtitle2Scene)
    (current_scene : Bool) (inp : SubtitleOptionsInput) :
    Option (Subtitle2Editor × Subtitle2Scene) :=
  let after_form :=
    if current_scene then draw_new_cutscene_line_form env ed scene.lines inp.form
    else some (ed, scene.lines)
  match after_form with
  | none => none
  | some (ed1, lines1) =>
    match ed1.bank ed1.m_current_language with
    | none => none
    | some bank =>
      let font := env.get_font_bank bank.text_version
      some (ed1, { lines := line_loop font bank.speakers ed1.m_speaker_names inp.line 0 0 lines1 })

/-! ## `draw_speaker_options` -/

/-- The body of the loop of `draw_speaker_options` (lines 206-228) for one
speaker name.  `input` is what the operator leaves in the name's `InputText`,
if edited. -/
def speaker_step (font : GameTextFontBank) (input : Option String) (speakers : UMap String)
    (speaker_name : String) : UMap String :=
  if speakers.count speaker_name = 0 then
    let inp := edited input ""
    if !inp.isEmpty then speakers.insert speaker_name inp else speakers
  else
    let inp := edited input (font.convert_game_to_utf8 ((speakers.at speaker_name).getD ""))
    if inp.isEmpty then speakers.erase speaker_name
    else speakers.assign speaker_name (font.convert_utf8_to_game inp true)

/-- The loop of `draw_speaker_options` (lines 205-229) over the names of
`m_speaker_names` from index `i` on; `input i` belongs to the `i`-th name. -/
def speaker_loop (font : GameTextFontBank) (input : Nat → Option String) :
    Nat → List String → UMap String → UMap String
  | _, [], speakers => speakers
  | i, speaker_name :: rest, speakers =>
    speaker_loop font input (i + 1) rest (speaker_step font (input i) speakers speaker_name)

/-- Models `Subtitle2Editor::draw_speaker_options`; `tree_open` is the result
of `TreeNode("Speakers")`. -/
def draw_speaker_options (env : Env) (ed : Subtitle2Editor) (tree_open : Bool)
    (input : Nat → Option String) : Option Subtitle2Editor :=
  if tree_open then
    match ed.bank ed.m_current_language with
    | none => none
    | some bank =>
      let font := env.get_font_bank bank.text_version
      some (ed.set_bank ed.m_current_language
        { bank with speakers := speaker_loop font input 0 ed.m_speaker_names bank.speakers })
  else some ed

/-! ## `draw_all_scenes` -/

/-- Models `name.find(pat) != std::string::npos`. -/
def string_contains (name pat : String) : Bool := decide (pat.data <:+: name.data)

/-- What the widgets of one listed scene return during one pass. -/
structure SceneInput where
  /-- Result of `TreeNode(...)` of the scene. -/
  tree_open : Bool
  /-- Result of `Button("Select as Current")`. -/
  select_as_current : Bool
  /-- Result of `Button("Copy from Base Language")`. -/
  copy_from_base : Bool
  /-- Widgets of the nested `draw_subtitle_options(scene)`. -/
  options : SubtitleOptionsInput
  /-- Result of `Button("Delete")`. -/
  delete : Bool

/-- The state of the scene loop: the editor, the set `to_delete`, and the names
whose `TreeNode` has been submitted so far (the scenes shown). -/
structure AllScenesState where
  ed : Subtitle2Editor
  to_delete : List String
  shown : List String

/-- The language whose bank `draw_all_scenes` lists. -/
def listed_language (ed : Subtitle2Editor) (base_cutscenes : Bool) : Int :=
  if base_cutscenes then ed.m_base_language else ed.m_current_language

/-- The filter test of lines 244-245: the scene is skipped. -/
def filtered_out (ed : Subtitle2Editor) (name : String) : Bool :=
  (!ed.m_filter.isEmpty && ed.m_filter != ed.m_filter_placeholder) &&
    !string_contains name ed.m_filter

/-- Models `to_delete.insert(name)` on the `std::unordered_set`. -/
def set_insert (s : List String) (name : String) : List String :=
  if name ∈ s then s else name :: s

/-- Stores a selection (lines 266-267 and 115-116): `m_current_scene` points
to the scene `name` of the bank under `lang`, `m_current_scene_name` is `name`. -/
def Subtitle2Editor.select (ed : Subtitle2Editor) (lang : Int) (name : String) :
    Subtitle2Editor :=
  { ed with m_current_scene := some (lang, name), m_current_scene_name := name }

/-- Resets the selection (lines 279-280). -/
def Subtitle2Editor.deselect (ed : Subtitle2Editor) : Subtitle2Editor :=
  { ed with m_current_scene := none, m_current_scene_name := "" }

/-- Models line 272, `m_banks.at(m_current_language)->add_scene(name, scene)`. -/
def copy_to_current (ed : Subtitle2Editor) (name : String) (scene : Subtitle2Scene) :
    Option Subtitle2Editor :=
  match ed.bank ed.m_current_language with
  | none => none
  | some cur =>
    match cur.add_scene name scene with
    | none => none
    | some cur1 => some (ed.set_bank ed.m_current_language cur1)

/-- The scene `draw_subtitle_options(scene)` has worked on is the entry `name`
of the bank under `lang`: stores what the call has made of it. -/
def write_scene (ed : Subtitle2Editor) (lang : Int) (name : String) (scene : Subtitle2Scene) :
    Option Subtitle2Editor :=
  match ed.bank lang with
  | none => none
  | some lb => some (ed.set_bank lang { lb with scenes := lb.scenes.assign name scene })

/-- One iteration of the scene loop of `draw_all_scenes` (lines 238-289) at the
entry `(name, scene)` of the listed bank. -/
def scene_step (env : Env) (base_cutscenes : Bool) (inp : String → SceneInput)
    (st : AllScenesState) (name : String) (scene : Subtitle2Scene) : Option AllScenesState :=
  let ed := st.ed
  let listed := listed_language ed base_cutscenes
  let duplicate : Option Bool :=
    if base_cutscenes then ed.is_scene_in_current_lang name else some false
  match duplicate with
  | none => none
  | some true => some st
  | some false =>
    let is_current_scene := ed.m_current_scene.isSome && ed.m_current_scene_name == name
    if filtered_out ed name then some st
    else
      let shown := st.shown ++ [name]
      if (inp name).tree_open then
        let ed1 :=
          if !base_cutscenes && !is_current_scene && (inp name).select_as_current then
            ed.select listed name
          else ed
        let copied : Option Subtitle2Editor :=
          if base_cutscenes && (inp name).copy_from_base then copy_to_current ed1 name scene
          else some ed1
        match copied with
        | none => none
        | some ed2 =>
          match draw_subtitle_options env ed2 scene false (inp name).options with
          | none => none
          | some (ed3, scene1) =>
            match write_scene ed3 listed name scene1 with
            | none => none
            | some ed4 =>
              if (inp name).delete then
                let ed5 :=
                  if ed4.m_current_scene = some (listed, name) ∨ name = ed4.m_current_scene_name
                  then ed4.deselect
                  else ed4
                some { ed := ed5, to_delete := set_insert st.to_delete name, shown := shown }
              else some { ed := ed4, to_delete := st.to_delete, shown := shown }
      else some { ed := ed, to_delete := st.to_delete, shown := shown }

/-- The scene loop over the entries of the listed bank. -/
def scenes_loop (env : Env) (base_cutscenes : Bool) (inp : String → SceneInput) :
    List (String × Subtitle2Scene) → AllScenesState → Option AllScenesState
  | [], st => some st
  | (name, scene) :: rest, st =>
    match scene_step env base_cutscenes inp st name scene with
    | none => none
    | some st1 => scenes_loop env base_cutscenes inp rest st1

/-- Models `Subtitle2Editor::draw_all_scenes`.  Returns the editor after the
pass, the names in `to_delete`, and the names of the scenes shown. -/
def draw_all_scenes (env : Env) (ed : Subtitle2Editor) (base_cutscenes : Bool)
    (inp : String → SceneInput) : Option (Subtitle2Editor × List String × List String) :=
  let listed := listed_language ed base_cutscenes
  match ed.bank listed with
  | none => none
  | some b =>
    match scenes_loop env base_cutscenes inp b.scenes { ed := ed, to_delete := [], shown := [] } with
    | none => none
    | some st =>
      match st.ed.bank listed with
      | none => none
      | some b1 =>
        some (st.ed.set_bank listed { b1 with scenes := st.to_delete.foldl UMap.erase b1.scenes },
          st.to_delete, st.shown)

/-! ## `draw_window`: the "All Cutscenes" node -/

/-- What the widgets in front of the scene list return during one pass. -/
structure AddSceneInput where
  /-- Result of `InputText("New Scene Name", ...)`: the edited name, if edited. -/
  new_scene_name : Option String
  /-- Result of `InputText("Filter", ...)`: the edited filter, if edited. -/
  filter : Option String
  /-- Result of `Button("Add Scene")`. -/
  add_scene : Bool
  /-- Whether `Checkbox("Add as Current Scene", ...)` was clicked. -/
  add_as_current_click : Bool

/-- The two text inputs of lines 101-102. -/
def new_scene_inputs (ed : Subtitle2Editor) (inp : AddSceneInput) : Subtitle2Editor :=
  { ed with
    m_new_scene_name := edited inp.new_scene_name ed.m_new_scene_name
    m_filter := edited inp.filter ed.m_filter }

/-- The body of `if (ImGui::Button("Add Scene"))`, lines 110-118. -/
def add_scene_pressed (ed : Subtitle2Editor) : Option Subtitle2Editor :=
  match ed.bank ed.m_current_language with
  | none => none
  | some bank =>
    match bank.add_scene ed.m_new_scene_name { lines := [] } with
    | none => none
    | some bank1 =>
      let ed2 := ed.set_bank ed.m_current_language bank1
      if ed2.m_add_new_scene_as_current then
        match bank1.scenes.at ed2.m_new_scene_name with
        | none => none
        | some _ =>
          some { ed2.select ed2.m_current_language ed2.m_new_scene_name with
            m_new_scene_name := "" }
      else some { ed2 with m_new_scene_name := "" }

/-- Lines 101-123 of `draw_window`: the two text inputs and the "Add Scene"
block. -/
def draw_window_add_scene (ed : Subtitle2Editor) (inp : AddSceneInput) :
    Option Subtitle2Editor :=
  let ed1 := new_scene_inputs ed inp
  match ed1.is_scene_in_current_lang ed1.m_new_scene_name with
  | none => none
  | some in_current =>
    if !in_current && !ed1.m_new_scene_name.isEmpty then
      let added : Option Subtitle2Editor :=
        if inp.add_scene then add_scene_pressed ed1 else some ed1
      match added with
      | none => none
      | some ed3 =>
        let flag := checkbox inp.add_as_current_click ed3.m_add_new_scene_as_current
        some { ed3 with m_add_new_scene_as_current := flag }
    else some ed1

/-- Lines 100-127 of `draw_window`: the "All Cutscenes" node, when open. -/
def draw_window_all_cutscenes (env : Env) (ed : Subtitle2Editor) (inp : AddSceneInput)
    (scenes_inp : String → SceneInput) : Option (Subtitle2Editor × List String × List String) :=
  match draw_window_add_scene ed inp with
  | none => none
  | some ed1 => draw_all_scenes env ed1 false scenes_inp

/-! ## Sequences of passes, and an order-keeping sort that meets `StdSort` -/

/-- A run of passes of the new-line form over the selected scene, one input
per pass. -/
def form_passes (env : Env) :
    Subtitle2Editor → List Subtitle2Line → List NewLineFormInput →
      Option (Subtitle2Editor × List Subtitle2Line)
  | ed, lines, [] => some (ed, lines)
  | ed, lines, inp :: rest =>
    match draw_new_cutscene_line_form env ed lines inp with
    | none => none
    | some (ed1, lines1) => form_passes env ed1 lines1 rest

/-- The pass takes the "Add Text Entry" branch: the bank is there, the guard
of line 424 lets the fields through and the button is pressed. -/
def successful_add (ed : Subtitle2Editor) (inp : NewLineFormInput) : Bool :=
  match ed.bank ed.m_current_language with
  | none => false
  | some bank => !form_invalid (form_fields ed bank.speakers inp) && inp.add_text_entry

/-- Every pass of the run takes the "Add Text Entry" branch. -/
def all_successful (env : Env) :
    Subtitle2Editor → List Subtitle2Line → List NewLineFormInput → Bool
  | _, _, [] => true
  | ed, lines, inp :: rest =>
    successful_add ed inp &&
      match draw_new_cutscene_line_form env ed lines inp with
      | none => false
      | some (ed1, lines1) => all_successful env ed1 lines1 rest

instance : IsTotal Subtitle2Line keyLE where
  total a b := by
    unfold keyLE
    rcases lt_trichotomy a.start b.start with h | h | h
    · exact Or.inl (Or.inl h)
    · rcases le_total a.end_ b.end_ with h2 | h2
      · exact Or.inl (Or.inr ⟨h, h2⟩)
      · exact Or.inr (Or.inr ⟨h.symm, h2⟩)
    · exact Or.inr (Or.inl h)

instance : IsTrans Subtitle2Line keyLE where
  trans a b c := by
    unfold keyLE
    rintro (h1 | ⟨h1, h1e⟩) (h2 | ⟨h2, h2e⟩)
    · exact Or.inl (h1.trans h2)
    · exact Or.inl (h2 ▸ h1)
    · exact Or.inl (h1 ▸ h2)
    · exact Or.inr ⟨h1.trans h2, h1e.trans h2e⟩

/-- Insertion sort that puts an element in front of the elements of equal key
standing to its right: equal keys keep their order. -/
def stable_sort : StdSort where
  sort l := l.insertionSort keyLE
  perm l := List.perm_insertionSort keyLE l
  sorted l := by
    refine (List.sorted_insertionSort keyLE l).imp ?_
    intro a b hab
    unfold keyLE at hab
    unfold Subtitle2Line.lt
    rcases hab with h | ⟨h, he⟩
    · simp [not_lt.mpr h.le, h.ne, h.ne.symm]
    · simp [h, not_lt.mpr he]

/-! ## `std::sort` as libstdc++ implements it (`bits/stl_algo.h`)

The vector is a list, an iterator is a position in it.  A range
`[first, last)` that a routine works on is passed as a list of its own. -/

/-- The constant `_S_threshold` of libstdc++. -/
def S_threshold : Nat := 16

/-- Models `std::iter_swap` on the positions `i` and `j` of the vector. -/
def iter_swap (v : List Subtitle2Line) (i j : Nat) : List Subtitle2Line :=
  match v[i]?, v[j]? with
  | some x, some y => (v.set i y).set j x
  | _, _ => v

/-- Models `std::__move_median_to_first(result, a, b, c, comp)`. -/
def move_median_to_first (v : List Subtitle2Line) (result a b c : Nat) : List Subtitle2Line :=
  match v[a]?, v[b]?, v[c]? with
  | some va, some vb, some vc =>
    if va.lt vb then
      if vb.lt vc then iter_swap v result b
      else if va.lt vc then iter_swap v result c
      else iter_swap v result a
    else if va.lt vc then iter_swap v result a
    else if vb.lt vc then iter_swap v result c
    else iter_swap v result b
  | _, _, _ => v

/-- The inner loop `while (comp(first, pivot)) ++first;` of
`std::__unguarded_partition`; `fuel` bounds the steps by the vector's length. -/
def scan_up (v : List Subtitle2Line) (pivot : Nat) : Nat → Nat → Nat
  | 0, first => first
  | fuel + 1, first =>
    match v[first]?, v[pivot]? with
    | some x, some p => if x.lt p then scan_up v pivot fuel (first + 1) else first
    | _, _ => first

/-- The inner loop `while (comp(pivot, last)) --last;` of
`std::__unguarded_partition`. -/
def scan_down (v : List Subtitle2Line) (pivot : Nat) : Nat → Nat → Nat
  | 0, last => last
  | fuel + 1, last =>
    match v[pivot]?, v[last]? with
    | some p, some x => if p.lt x then scan_down v pivot fuel (last - 1) else last
    | _, _ => last

/-- Models `std::__unguarded_partition(first, last, pivot, comp)`: the vector
after the swaps and the position returned.  Every turn of the outer loop but
the last swaps two positions and moves `first` up, so the vector's length
bounds the turns (`fuel`). -/
def unguarded_partition (pivot : Nat) :
    Nat → List Subtitle2Line → Nat → Nat → List Subtitle2Line × Nat
  | 0, v, first, _ => (v, first)
  | fuel + 1, v, first, last =>
    let first1 := scan_up v pivot v.length first
    let last1 := scan_down v pivot v.length (last - 1)
    if first1 < last1 then
      unguarded_partition pivot fuel (iter_swap v first1 last1) (first1 + 1) last1
    else (v, first1)

/-- Models `std::__unguarded_partition_pivot(first, last, comp)` on the range
`v`. -/
def unguarded_partition_pivot (v : List Subtitle2Line) : List Subtitle2Line × Nat :=
  let mid := v.length / 2
  let v1 := move_median_to_first v 0 1 mid (v.length - 1)
  unguarded_partition 0 v1.length v1 1 v1.length

/-- Models `std::__introsort_loop(first, last, depth_limit, comp)` on the range
`v`.  The loop sorts the part behind the cut by a call of itself and goes on
with the part in front of it, both with the lowered depth limit.  `heap` is the
heapsort of `std::__partial_sort(first, last, last, comp)`, which is not
modelled: the loop reaches it only with the depth limit used up. -/
def introsort_loop (heap : List Subtitle2Line → List Subtitle2Line) :
    Nat → List Subtitle2Line → List Subtitle2Line
  | 0, v => if v.length > S_threshold then heap v else v
  | depth_limit + 1, v =>
    if v.length > S_threshold then
      let r := unguarded_partition_pivot v
      introsort_loop heap depth_limit (r.1.take r.2) ++
        introsort_loop heap depth_limit (r.1.drop r.2)
    else v

/-- Models `std::__unguarded_linear_insert(last, comp)`: `front` holds the
elements in front of `*last`, the nearest first; the result holds them with
`val` put in, again the nearest to the end first.  The walk ends at the front
of the vector at the latest (in libstdc++ an element not above `val` stands
there). -/
def unguarded_linear_insert (val : Subtitle2Line) : List Subtitle2Line → List Subtitle2Line
  | [] => [val]
  | next :: front =>
    if val.lt next then next :: unguarded_linear_insert val front else val :: next :: front

/-- The loop of `std::__insertion_sort(first, last, comp)`: `done` holds the
part in front of `i`, the nearest first. -/
def insertion_sort_loop : List Subtitle2Line → List Subtitle2Line → List Subtitle2Line
  | done, [] => done.reverse
  | done, x :: rest =>
    match done.getLast? with
    | some first =>
      if x.lt first then insertion_sort_loop (done ++ [x]) rest
      else insertion_sort_loop (unguarded_linear_insert x done) rest
    | none => insertion_sort_loop [x] rest

/-- Models `std::__insertion_sort(first, last, comp)`. -/
def insertion_sort : List Subtitle2Line → List Subtitle2Line
  | [] => []
  | x :: rest => insertion_sort_loop [x] rest

/-- Models `std::__unguarded_insertion_sort(first, last, comp)`: `done` holds
the part of the vector in front of `first`, the nearest first. -/
def unguarded_insertion_sort : List Subtitle2Line → List Subtitle2Line → List Subtitle2Line
  | done, [] => done.reverse
  | done, x :: rest => unguarded_insertion_sort (unguarded_linear_insert x done) rest

/-- Models `std::__final_insertion_sort(first, last, comp)`. -/
def final_insertion_sort (v : List Subtitle2Line) : List Subtitle2Line :=
  if v.length > S_threshold then
    unguarded_insertion_sort (insertion_sort (v.take S_threshold)).reverse (v.drop S_threshold)
  else insertion_sort v

/-- Models `std::__lg(n)`, the position of the highest set bit of `n`; `fuel`
bounds the halvings. -/
def lg_loop : Nat → Nat → Nat
  | 0, _ => 0
  | fuel + 1, n => if n < 2 then 0 else lg_loop fuel (n / 2) + 1

/-- Models `std::__sort(first, last, comp)`, which `std::sort` calls. -/
def gnu_sort (heap : List Subtitle2Line → List Subtitle2Line) (v : List Subtitle2Line) :
    List Subtitle2Line :=
  if v = [] then v
  else final_insertion_sort (introsort_loop heap (lg_loop v.length v.length * 2) v)

/-- The `std::sort` of libstdc++ as a sorting algorithm that meets the contract
`StdSort`: `gnu_sort`, with any algorithm that meets the contract in the place
of the heapsort the loop falls back on.  The result is sorted because the last
pass is an insertion sort over the whole vector, and it is a rearrangement
because every step before it swaps two positions. -/
def libstdcxx_sort (heap : StdSort) : StdSort where
  sort := gnu_sort heap.sort
  perm := by
    have iter_swap_perm : ∀ (v : List Subtitle2Line) (i j : Nat), (iter_swap v i j).Perm v := by
      intro v i j
      unfold iter_swap
      cases hi : v[i]? with
      | none => exact List.Perm.refl _
      | some x =>
        cases hj : v[j]? with
        | none => exact List.Perm.refl _
        | some y =>
          simp only []
          obtain ⟨hil, hix⟩ := List.getElem?_eq_some_iff.mp hi
          obtain ⟨hjl, hjy⟩ := List.getElem?_eq_some_iff.mp hj
          rw [List.perm_iff_count]
          intro a
          have hjl2 : j < (v.set i y).length := by simpa using hjl
          rw [List.count_set _ _ _ _ hjl2, List.count_set _ _ _ _ hil]
          have hget : (v.set i y)[j] = y := by
            rw [List.getElem_set]
            split
            · rfl
            · exact hjy
          rw [hget, hix]
          have hle : (if (x == a) = true then 1 else 0) ≤ List.count a v := by
            by_cases hxa : (x == a) = true
            · have hmem : a ∈ v := by
                have : x = a := by simpa using hxa
                rw [← this, ← hix]
                exact List.getElem_mem _
              rw [if_pos hxa]
              exact List.count_pos_iff.mpr hmem
            · rw [if_neg hxa]; exact Nat.zero_le _
          generalize (if (x == a) = true then 1 else 0) = p at hle ⊢
          generalize (if (y == a) = true then 1 else 0) = q
          omega
    have move_median_perm : ∀ (v : List Subtitle2Line) (r a b c : Nat),
        (move_median_to_first v r a b c).Perm v := by
      intro v r a b c
      unfold move_median_to_first
      split
      · split
        · split
          · exact iter_swap_perm _ _ _
          · split
            · exact iter_swap_perm _ _ _
            · exact iter_swap_perm _ _ _
        · split
          · exact iter_swap_perm _ _ _
          · split
            · exact iter_swap_perm _ _ _
            · exact iter_swap_perm _ _ _
      · exact List.Perm.refl _
    have unguarded_partition_perm : ∀ (pivot fuel : Nat) (v : List Subtitle2Line)
        (first last : Nat), (unguarded_partition pivot fuel v first last).1.Perm v := by
      intro pivot fuel
      induction fuel with
      | zero => intro v first last; exact List.Perm.refl _
      | succ fuel ih =>
        intro v first last
        unfold unguarded_partition
        simp only []
        split
        · exact (ih _ _ _).trans (iter_swap_perm _ _ _)
        · exact List.Perm.refl _
    have partition_pivot_perm : ∀ v : List Subtitle2Line,
        (unguarded_partition_pivot v).1.Perm v := by
      intro v
      unfold unguarded_partition_pivot
      exact (unguarded_partition_perm _ _ _ _ _).trans (move_median_perm _ _ _ _ _)
    have introsort_loop_perm : ∀ (heap : List Subtitle2Line → List Subtitle2Line),
        (∀ l, (heap l).Perm l) → ∀ (d : Nat) (v : List Subtitle2Line),
          (introsort_loop heap d v).Perm v := by
      intro heap hheap d
      induction d with
      | zero =>
        intro v
        unfold introsort_loop
        split
        · exact hheap v
        · exact List.Perm.refl _
      | succ d ih =>
        intro v
        unfold introsort_loop
        split
        · simp only []
          refine ((ih _).append (ih _)).trans ?_
          rw [List.take_append_drop]
          exact partition_pivot_perm v
        · exact List.Perm.refl _
    have linear_insert_perm : ∀ (val : Subtitle2Line) (front : List Subtitle2Line),
        (unguarded_linear_insert val front).Perm (val :: front) := by
      intro val front
      induction front with
      | nil => exact List.Perm.refl _
      | cons next front ih =>
        unfold unguarded_linear_insert
        split
        · exact (List.Perm.cons next ih).trans (List.Perm.swap val next front)
        · exact List.Perm.refl _
    have insertion_sort_loop_perm : ∀ (rest done : List Subtitle2Line),
        (insertion_sort_loop done rest).Perm (done ++ rest) := by
      intro rest
      induction rest with
      | nil => intro done; simp [insertion_sort_loop]
      | cons x rest ih =>
        intro done
        unfold insertion_sort_loop
        have hmid : (done ++ [x] ++ rest).Perm (done ++ x :: rest) := by simp
        have hmid2 : (x :: (done ++ rest)).Perm (done ++ x :: rest) := List.perm_middle.symm
        have hins : (unguarded_linear_insert x done ++ rest).Perm (done ++ x :: rest) :=
          ((linear_insert_perm x done).append_right rest).trans hmid2
        split
        · split
          · exact (ih _).trans hmid
          · exact (ih _).trans hins
        · rename_i hnone
          have : done = [] := by simpa using hnone
          subst this
          exact ih _
    have insertion_sort_perm : ∀ v : List Subtitle2Line, (insertion_sort v).Perm v := by
      intro v
      cases v with
      | nil => exact List.Perm.refl _
      | cons x rest => exact insertion_sort_loop_perm rest [x]
    have unguarded_insertion_sort_perm : ∀ (rest done : List Subtitle2Line),
        (unguarded_insertion_sort done rest).Perm (done ++ rest) := by
      intro rest
      induction rest with
      | nil => intro done; simp [unguarded_insertion_sort]
      | cons x rest ih =>
        intro done
        unfold unguarded_insertion_sort
        have hmid2 : (x :: (done ++ rest)).Perm (done ++ x :: rest) := List.perm_middle.symm
        exact (ih _).trans (((linear_insert_perm x done).append_right rest).trans hmid2)
    have final_insertion_sort_perm : ∀ v : List Subtitle2Line,
        (final_insertion_sort v).Perm v := by
      intro v
      unfold final_insertion_sort
      split
      · refine (unguarded_insertion_sort_perm _ _).trans ?_
        refine (((List.reverse_perm _).trans (insertion_sort_perm _)).append_right _).trans ?_
        rw [List.take_append_drop]
      · exact insertion_sort_perm v
    intro v
    unfold gnu_sort
    split
    · exact List.Perm.refl _
    · exact (final_insertion_sort_perm _).trans (introsort_loop_perm heap.sort heap.perm _ v)
  sorted := by
    have linear_insert_perm : ∀ (val : Subtitle2Line) (front : List Subtitle2Line),
        (unguarded_linear_insert val front).Perm (val :: front) := by
      intro val front
      induction front with
      | nil => exact List.Perm.refl _
      | cons next front ih =>
        unfold unguarded_linear_insert
        split
        · exact (List.Perm.cons next ih).trans (List.Perm.swap val next front)
        · exact List.Perm.refl _
    have lt_asymm_line : ∀ a b : Subtitle2Line, a.lt b = true → b.lt a = false := by
      intro a b h
      unfold Subtitle2Line.lt at h ⊢
      simp only [Bool.or_eq_true, Bool.and_eq_true, decide_eq_true_eq] at h
      rcases h with h | ⟨h1, h2⟩
      · simp [not_lt.mpr h.le, h.ne']
      · simp [h1, not_lt.mpr h2.le]
    have lt_false_keyLE : ∀ a b : Subtitle2Line, b.lt a = false ↔ keyLE a b := by
      intro a b
      unfold Subtitle2Line.lt keyLE
      rcases lt_trichotomy a.start b.start with h | h | h
      · simp [h, not_lt.mpr h.le, h.ne']
      · simp [h]
      · simp [h, not_lt.mpr h.le, h.ne, h.ne.symm]
    have lt_false_trans : ∀ a b c : Subtitle2Line,
        a.lt b = false → b.lt c = false → a.lt c = false := by
      intro a b c h1 h2
      rw [lt_false_keyLE] at h1 h2 ⊢
      exact IsTrans.trans (r := keyLE) c b a h2 h1
    have linear_insert_desc : ∀ (val : Subtitle2Line) (front : List Subtitle2Line),
        front.Pairwise (fun x y => x.lt y = false) →
          (unguarded_linear_insert val front).Pairwise (fun x y => x.lt y = false) := by
      intro val front
      induction front with
      | nil => intro _; simp [unguarded_linear_insert]
      | cons next front ih =>
        intro hd
        rw [List.pairwise_cons] at hd
        unfold unguarded_linear_insert
        split
        · rename_i hlt
          rw [List.pairwise_cons]
          refine ⟨?_, ih hd.2⟩
          intro y hy
          rcases List.mem_cons.mp ((linear_insert_perm val front).mem_iff.mp hy) with rfl | hy
          · exact lt_asymm_line _ _ hlt
          · exact hd.1 y hy
        · rename_i hlt
          have hlt2 : val.lt next = false := by simpa using hlt
          rw [List.pairwise_cons]
          refine ⟨?_, List.pairwise_cons.mpr hd⟩
          intro y hy
          rcases List.mem_cons.mp hy with rfl | hy
          · exact hlt2
          · exact lt_false_trans _ _ _ hlt2 (hd.1 y hy)
    have lt_irrefl_line : ∀ a : Subtitle2Line, a.lt a = false := by
      intro a
      unfold Subtitle2Line.lt
      simp
    have last_is_least : ∀ (done : List Subtitle2Line) (first : Subtitle2Line),
        done.getLast? = some first → done.Pairwise (fun x y => x.lt y = false) →
          ∀ a ∈ done, a.lt first = false := by
      intro done first hlast hd a ha
      obtain ⟨ys, rfl⟩ := List.getLast?_eq_some_iff.mp hlast
      rw [List.pairwise_append] at hd
      rcases List.mem_append.mp ha with ha | ha
      · exact hd.2.2 a ha first (by simp)
      · have : a = first := by simpa using ha
        rw [this]
        exact lt_irrefl_line first
    have insertion_sort_loop_sorted : ∀ (rest done : List Subtitle2Line),
        done.Pairwise (fun x y => x.lt y = false) →
          (insertion_sort_loop done rest).Pairwise (fun a b => b.lt a = false) := by
      intro rest
      induction rest with
      | nil =>
        intro done hd
        unfold insertion_sort_loop
        exact List.pairwise_reverse.mpr hd
      | cons x rest ih =>
        intro done hd
        unfold insertion_sort_loop
        split
        · rename_i first hlast
          split
          · rename_i hlt
            apply ih
            rw [List.pairwise_append]
            refine ⟨hd, by simp, ?_⟩
            intro a ha b hb
            have hb2 : b = x := by simpa using hb
            rw [hb2]
            exact lt_false_trans _ _ _ (last_is_least done first hlast hd a ha)
              (lt_asymm_line _ _ hlt)
          · exact ih _ (linear_insert_desc x done hd)
        · exact ih _ (by simp)
    have insertion_sort_sorted : ∀ v : List Subtitle2Line,
        (insertion_sort v).Pairwise (fun a b => b.lt a = false) := by
      intro v
      cases v with
      | nil => exact List.Pairwise.nil
      | cons x rest => exact insertion_sort_loop_sorted rest [x] (by simp)
    have unguarded_insertion_sort_sorted : ∀ (rest done : List Subtitle2Line),
        done.Pairwise (fun x y => x.lt y = false) →
          (unguarded_insertion_sort done rest).Pairwise (fun a b => b.lt a = false) := by
      intro rest
      induction rest with
      | nil =>
        intro done hd
        unfold unguarded_insertion_sort
        exact List.pairwise_reverse.mpr hd
      | cons x rest ih =>
        intro done hd
        unfold unguarded_insertion_sort
        exact ih _ (linear_insert_desc x done hd)
    have final_insertion_sort_sorted : ∀ v : List Subtitle2Line,
        (final_insertion_sort v).Pairwise (fun a b => b.lt a = false) := by
      intro v
      unfold final_insertion_sort
      split
      · exact unguarded_insertion_sort_sorted _ _
          (List.pairwise_reverse.mpr (insertion_sort_sorted _))
      · exact insertion_sort_sorted v
    intro v
    unfold gnu_sort
    split
    · rename_i h; rw [h]; exact List.Pairwise.nil
    · exact final_insertion_sort_sorted _

/-- The line with its text converted to UTF-8 and back to game encoding, all
other fields as they are. -/
def reconverted (font : GameTextFontBank) (l : Subtitle2Line) : Subtitle2Line :=
  { l with text := font.convert_utf8_to_game (font.convert_game_to_utf8 l.text) true }

/-- What the loop body of `draw_subtitle_options` writes to a line it does not
erase (lines 313-378): the widgets' values when the node is open, the same
times, speaker and flag with the text converted forth and back when not. -/
def edited_line (font : GameTextFontBank) (speakers : UMap String) (speaker_names : List String)
    (I : LineInput) (line : Subtitle2Line) : Subtitle2Line :=
  if I.tree_open then
    { start := (edited I.times (line.start, line.end_)).1
      end_ := (edited I.times (line.start, line.end_)).2
      text := font.convert_utf8_to_game (edited I.text (font.convert_game_to_utf8 line.text)) true
      speaker :=
        if I.combo_open then select_speaker speakers I.selectable 0 speaker_names line.speaker
        else line.speaker
      offscreen := checkbox I.offscreen_click line.offscreen }
  else
    { line with text := font.convert_utf8_to_game (font.convert_game_to_utf8 line.text) true }

/-- The operator changes no widget of the line and presses no button of it
(the node and the combo may be open). -/
def LineInput.untouched (I : LineInput) : Prop :=
  I.times = none ∧ I.text = none ∧ I.offscreen_click = false ∧ I.delete = false ∧
    ∀ i, I.selectable i = false

/-- The operator changes no widget of the form and does not press its button. -/
def NewLineFormInput.untouched (I : NewLineFormInput) : Prop :=
  I.frame = none ∧ I.text = none ∧ I.offscreen_click = false ∧ I.add_text_entry = false ∧
    ∀ i, I.selectable i = false

/-! ## The scene list: what a pass shows and selects, in closed form -/

/-- The scene `name` of the listed bank is shown: it is not a duplicate of a
scene of the current language (base listing only) and the filter lets it
through.  `cur_scenes` is the scene map of the current language. -/
def scene_visible (ed : Subtitle2Editor) (base_cutscenes : Bool)
    (cur_scenes : UMap Subtitle2Scene) (name : String) : Bool :=
  (!base_cutscenes || decide (cur_scenes.count name = 0)) && !filtered_out ed name

/-- The selection (pointer and name) after the buttons of one shown, open
scene: `sel` says that "Select as Current" took effect, `del` that "Delete"
was pressed. -/
def selection_after (listed : Int) (name : String) (sel del : Bool)
    (p : Option (Int × String) × String) : Option (Int × String) × String :=
  let p1 := if sel then (some (listed, name), name) else p
  if del = true ∧ (p1.1 = some (listed, name) ∨ name = p1.2) then (none, "") else p1

/-- "Select as Current" is offered and pressed at the scene `name`. -/
def select_pressed (ed : Subtitle2Editor) (base_cutscenes : Bool) (I : SceneInput)
    (name : String) : Bool :=
  !base_cutscenes && !(ed.m_current_scene.isSome && ed.m_current_scene_name == name) &&
    I.select_as_current

/-- The rest of an iteration of the scene loop behind the "Copy from Base
Language" button (lines 275-283), as it stands inside `scene_step`: the nested
`draw_subtitle_options(scene)` and the "Delete" button. -/
def scene_node_tail (env : Env) (I : SceneInput) (ed2 : Subtitle2Editor) (listed : Int)
    (name : String) (scene : Subtitle2Scene) (to_delete shown : List String) :
    Option AllScenesState :=
  match draw_subtitle_options env ed2 scene false I.options with
  | none => none
  | some (ed3, scene1) =>
    match write_scene ed3 listed name scene1 with
    | none => none
    | some ed4 =>
      if I.delete then
        some { ed := if ed4.m_current_scene = some (listed, name) ∨ name = ed4.m_current_scene_name
                then ed4.deselect else ed4
               to_delete := set_insert to_delete name
               shown := shown }
      else some { ed := ed4, to_delete := to_delete, shown := shown }

/-- The two editors agree on the languages and on the filter. -/
structure SameSettings (a b : Subtitle2Editor) : Prop where
  current_language : b.m_current_language = a.m_current_language
  base_language : b.m_base_language = a.m_base_language
  filter : b.m_filter = a.m_filter
  filter_placeholder : b.m_filter_placeholder = a.m_filter_placeholder

/-- How one iteration of the scene loop at `name` relates the loop state `st`
in front of it to the state `st1` behind it; `cb` and `lb` are the current and
the listed bank in front of the iteration. -/
structure StepFacts (base_cutscenes : Bool) (inp : String → SceneInput)
    (st st1 : AllScenesState) (name : String) (cb lb : GameSubtitle2Bank) : Prop where
  current_language : st1.ed.m_current_language = st.ed.m_current_language
  base_language : st1.ed.m_base_language = st.ed.m_base_language
  filter : st1.ed.m_filter = st.ed.m_filter
  filter_placeholder : st1.ed.m_filter_placeholder = st.ed.m_filter_placeholder
  current_bank : ∃ cb1, st1.ed.bank st.ed.m_current_language = some cb1 ∧
    ∀ n, n ≠ name → cb1.scenes.count n = cb.scenes.count n
  listed_bank : ∃ lb1, st1.ed.bank (listed_language st.ed base_cutscenes) = some lb1 ∧
    lb1.scenes.map Prod.fst = lb.scenes.map Prod.fst
  shown : st1.shown =
    if scene_visible st.ed base_cutscenes cb.scenes name then st.shown ++ [name] else st.shown
  to_delete : st1.to_delete =
    if scene_visible st.ed base_cutscenes cb.scenes name && (inp name).tree_open &&
        (inp name).delete then set_insert st.to_delete name
    else st.to_delete
  selection : (st1.ed.m_current_scene, st1.ed.m_current_scene_name) =
    if scene_visible st.ed base_cutscenes cb.scenes name && (inp name).tree_open then
      selection_after (listed_language st.ed base_cutscenes) name
        (select_pressed st.ed base_cutscenes (inp name) name) (inp name).delete
        (st.ed.m_current_scene, st.ed.m_current_scene_name)
    else (st.ed.m_current_scene, st.ed.m_current_scene_name)

/-- The selection `(p, nm)` of a loop state, seen from the start of the pass
with selection `(p0, nm0)`: it has been reset, or it is the one from the start
and no deletion so far concerns it, or a "Select as Current" press made it and
its scene has not been deleted. -/
def SelectionOrigin (inp : String → SceneInput) (listed : Int)
    (p0 : Option (Int × String)) (nm0 : String) (to_delete : List String)
    (p : Option (Int × String)) (nm : String) : Prop :=
  (p = none ∧ nm = "") ∨
  (p = p0 ∧ nm = nm0 ∧ nm0 ∉ to_delete ∧ ∀ n ∈ to_delete, p0 ≠ some (listed, n)) ∨
  (∃ n, (inp n).select_as_current = true ∧ p = some (listed, n) ∧ nm = n ∧ n ∉ to_delete)

/-- The invariant of the scene loop of `draw_all_scenes`: `ed0`, `cb0`, `lb0`
are the editor, the current bank and the listed bank at the start of the pass,
`visited` the names the loop has been through, `st` the loop state. -/
structure LoopInv (base_cutscenes : Bool) (inp : String → SceneInput) (ed0 : Subtitle2Editor)
    (cb0 lb0 : GameSubtitle2Bank) (visited : List String) (st : AllScenesState) : Prop where
  settings : SameSettings ed0 st.ed
  current_bank : ∃ cb, st.ed.bank ed0.m_current_language = some cb ∧
    ∀ n, n ∉ visited → cb.scenes.count n = cb0.scenes.count n
  listed_bank : ∃ lb, st.ed.bank (listed_language ed0 base_cutscenes) = some lb ∧
    lb.scenes.map Prod.fst = lb0.scenes.map Prod.fst
  shown : st.shown = visited.filter (scene_visible ed0 base_cutscenes cb0.scenes)
  to_delete : ∀ n, n ∈ st.to_delete ↔
    n ∈ visited ∧ scene_visible ed0 base_cutscenes cb0.scenes n = true ∧
      (inp n).tree_open = true ∧ (inp n).delete = true
  selection : SelectionOrigin inp (listed_language ed0 base_cutscenes)
    ed0.m_current_scene ed0.m_current_scene_name st.to_delete
    st.ed.m_current_scene st.ed.m_current_scene_name

/-! ## Sample data -/

/-- A font bank whose conversions leave the text as it is. -/
def plain_font : GameTextFontBank :=
  { convert_game_to_utf8 := fun s => s, convert_utf8_to_game := fun s _ => s }

/-- A font bank whose game encoding has capital letters only. -/
def caps_font : GameTextFontBank :=
  { convert_game_to_utf8 := fun s => s
    convert_utf8_to_game := fun s _ => String.mk (s.data.map Char.toUpper) }

/-- An environment with the order-keeping sort. -/
def sample_env : Env := { get_font_bank := fun _ => plain_font, std_sort := stable_sort }

/-- An environment with the `std::sort` of libstdc++; `stable_sort` stands in
for the heapsort, which vectors as short as the examples do not reach. -/
def sample_env_gnu : Env :=
  { get_font_bank := fun _ => plain_font, std_sort := libstdcxx_sort stable_sort }

/-- An environment with the capitals-only font. -/
def sample_env_caps : Env := { get_font_bank := fun _ => caps_font, std_sort := stable_sort }

/-- A line without speaker, on screen. -/
def mk_line (s e : ℚ) (text : String) : Subtitle2Line :=
  { start := s, end_ := e, text := text, speaker := "", offscreen := false }

/-- Sixteen lines with the same key (0, 5), in the order of their texts. -/
def tied_lines : List Subtitle2Line :=
  [mk_line 0 5 "e0", mk_line 0 5 "e1", mk_line 0 5 "e2", mk_line 0 5 "e3",
   mk_line 0 5 "e4", mk_line 0 5 "e5", mk_line 0 5 "e6", mk_line 0 5 "e7",
   mk_line 0 5 "e8", mk_line 0 5 "e9", mk_line 0 5 "e10", mk_line 0 5 "e11",
   mk_line 0 5 "e12", mk_line 0 5 "e13", mk_line 0 5 "e14", mk_line 0 5 "e15"]

/-- A bank with two scenes and one speaker. -/
def sample_bank : GameSubtitle2Bank :=
  { text_version := 0
    scenes := [("intro", { lines := [mk_line 0 5 "a", mk_line 10 15 "b", mk_line 20 25 "c"] }),
               ("outro", { lines := [mk_line 0 0 "x"] })]
    speakers := [("joe", "JOE")] }

/-- A base-language bank sharing the scene name "intro" with `sample_bank`. -/
def sample_base_bank : GameSubtitle2Bank :=
  { text_version := 0
    scenes := [("intro", { lines := [mk_line 0 5 "A"] }), ("finale", { lines := [mk_line 1 2 "F"] })]
    speakers := [] }

/-- An editor on language 0 with base language 1 and scene "intro" selected. -/
def sample_editor : Subtitle2Editor :=
  { m_banks := [(0, sample_bank), (1, sample_base_bank)]
    m_current_language := 0
    m_base_language := 1
    m_current_scene := some (0, "intro")
    m_current_scene_name := "intro"
    m_current_scene_frame := (0, 0)
    m_current_scene_text := ""
    m_current_scene_speaker := ""
    m_current_scene_offscreen := false
    m_new_scene_name := ""
    m_add_new_scene_as_current := false
    m_filter := "Filter List..."
    m_filter_placeholder := "Filter List..."
    m_speaker_names := ["joe", "sam"] }

/-- The form left alone. -/
def idle_form : NewLineFormInput :=
  { frame := none, combo_open := false, selectable := fun _ => false, text := none,
    offscreen_click := false, add_text_entry := false }

/-- The form filled with a frame pair and a text, and "Add Text Entry" pressed. -/
def add_form (s e : ℚ) (text : String) : NewLineFormInput :=
  { frame := some (s, e), combo_open := false, selectable := fun _ => false, text := some text,
    offscreen_click := false, add_text_entry := true }

/-- A line left alone, its node closed. -/
def idle_line : LineInput :=
  { tree_open := false, times := none, combo_open := false, selectable := fun _ => false,
    text := none, offscreen_click := false, delete := false }

/-- A line whose node is open and whose frame pair is edited. -/
def retime_line (s e : ℚ) : LineInput :=
  { tree_open := true, times := some (s, e), combo_open := false, selectable := fun _ => false,
    text := none, offscreen_click := false, delete := false }

/-- A line whose node is open and whose "Delete" is pressed. -/
def delete_line : LineInput :=
  { tree_open := true, times := none, combo_open := false, selectable := fun _ => false,
    text := none, offscreen_click := false, delete := true }

/-! ## Lines: order and the new-line form -/

theorem lt_eq_false_iff (a b : Subtitle2Line) : b.lt a = false ↔ keyLE a b := by
  unfold Subtitle2Line.lt keyLE
  rcases lt_trichotomy a.start b.start with h | h | h
  · simp [h, not_lt.mpr h.le, h.ne']
  · simp [h]
  · simp [h, not_lt.mpr h.le, h.ne, h.ne.symm]

theorem StdSort.sortedByKey (S : StdSort) (l : List Subtitle2Line) : SortedByKey (S.sort l) :=
  (S.sorted l).imp (fun {a b} h => (lt_eq_false_iff a b).mp h)

theorem isEmpty_eq_true_iff (s : String) : s.isEmpty = true ↔ s = "" :=
  String.isEmpty_iff s

theorem form_fields_banks (ed : Subtitle2Editor) (sp : UMap String) (inp : NewLineFormInput) :
    (form_fields ed sp inp).m_banks = ed.m_banks ∧
      (form_fields ed sp inp).m_current_language = ed.m_current_language :=
  ⟨rfl, rfl⟩

theorem draw_form_invalid (env : Env) (ed : Subtitle2Editor) (lines : List Subtitle2Line)
    (inp : NewLineFormInput) (bank : GameSubtitle2Bank)
    (hb : ed.bank ed.m_current_language = some bank)
    (hv : form_invalid (form_fields ed bank.speakers inp) = true) :
    draw_new_cutscene_line_form env ed lines inp = some (form_fields ed bank.speakers inp, lines) := by
  simp [draw_new_cutscene_line_form, hb, hv]

theorem draw_form_add (env : Env) (ed : Subtitle2Editor) (lines : List Subtitle2Line)
    (inp : NewLineFormInput) (bank : GameSubtitle2Bank)
    (hb : ed.bank ed.m_current_language = some bank)
    (hv : form_invalid (form_fields ed bank.speakers inp) = false)
    (ha : inp.add_text_entry = true) :
    draw_new_cutscene_line_form env ed lines inp =
      some (form_fields ed bank.speakers inp,
        env.std_sort.sort (lines ++
          [form_line (env.get_font_bank bank.text_version) (form_fields ed bank.speakers inp)])) := by
  simp [draw_new_cutscene_line_form, hb, hv, ha]

theorem draw_form_idle (env : Env) (ed : Subtitle2Editor) (lines : List Subtitle2Line)
    (inp : NewLineFormInput) (bank : GameSubtitle2Bank)
    (hb : ed.bank ed.m_current_language = some bank)
    (ha : inp.add_text_entry = false) :
    draw_new_cutscene_line_form env ed lines inp = some (form_fields ed bank.speakers inp, lines) := by
  simp [draw_new_cutscene_line_form, hb, ha]

theorem successful_add_iff (ed : Subtitle2Editor) (inp : NewLineFormInput) :
    successful_add ed inp = true ↔
      ∃ bank, ed.bank ed.m_current_language = some bank ∧
        form_invalid (form_fields ed bank.speakers inp) = false ∧ inp.add_text_entry = true := by
  unfold successful_add
  cases h : ed.bank ed.m_current_language with
  | none => simp
  | some bank => simp

theorem all_successful_sorted (env : Env) (inps : List NewLineFormInput) :
    ∀ (ed : Subtitle2Editor) (lines : List Subtitle2Line), SortedByKey lines →
      all_successful env ed lines inps = true →
      ∃ ed1 lines1, form_passes env ed lines inps = some (ed1, lines1) ∧ SortedByKey lines1 := by
  induction inps with
  | nil => intro ed lines hs _; exact ⟨ed, lines, rfl, hs⟩
  | cons inp rest ih =>
    intro ed lines _ hall
    simp only [all_successful, Bool.and_eq_true] at hall
    obtain ⟨hadd, hrest⟩ := hall
    obtain ⟨bank, hb, hv, ha⟩ := (successful_add_iff ed inp).mp hadd
    have hd := draw_form_add env ed lines inp bank hb hv ha
    rw [hd] at hrest
    simp only [form_passes, hd]
    exact ih _ _ (StdSort.sortedByKey _ _) hrest

/-- C1. After any run of one or more passes of `draw_new_cutscene_line_form`
that each take the "Add Text Entry" branch, the run has a result and the lines
of the selected scene are sorted non-decreasing by `(start, end)`, whatever the
lines were before and whichever conforming `std::sort` is used. -/
theorem addLine_sequence_sorted (env : Env) (ed : Subtitle2Editor)
    (lines : List Subtitle2Line) (inps : List NewLineFormInput)
    (hne : inps ≠ []) (hall : all_successful env ed lines inps = true) :
    ∃ ed1 lines1, form_passes env ed lines inps = some (ed1, lines1) ∧ SortedByKey lines1 := by
  cases inps with
  | nil => exact absurd rfl hne
  | cons inp rest =>
    simp only [all_successful, Bool.and_eq_true] at hall
    obtain ⟨hadd, hrest⟩ := hall
    obtain ⟨bank, hb, hv, ha⟩ := (successful_add_iff ed inp).mp hadd
    have hd := draw_form_add env ed lines inp bank hb hv ha
    rw [hd] at hrest
    simp only [form_passes, hd]
    exact all_successful_sorted env rest _ _ (StdSort.sortedByKey _ _) hrest

theorem addLine_sequence_sorted_witness :
    ([add_form 30 31 "z", add_form 0 1 "y"] : List NewLineFormInput) ≠ [] ∧
      all_successful sample_env sample_editor [mk_line 20 25 "c", mk_line 0 5 "a"]
        [add_form 30 31 "z", add_form 0 1 "y"] = true ∧
      ∃ ed1 lines1,
        form_passes sample_env sample_editor [mk_line 20 25 "c", mk_line 0 5 "a"]
          [add_form 30 31 "z", add_form 0 1 "y"] = some (ed1, lines1) ∧ SortedByKey lines1 :=
  ⟨by simp, by decide,
    addLine_sequence_sorted sample_env sample_editor [mk_line 20 25 "c", mk_line 0 5 "a"]
      [add_form 30 31 "z", add_form 0 1 "y"] (by simp) (by decide)⟩

/-- C4. With `p` the form's fields as the guard of line 424 reads them (the
pending values): if the pending start or end frame is negative or the pending
text is empty, `draw_new_cutscene_line_form` returns with the scene's lines
exactly as they were, whatever is pressed (in particular so when the fields
stored in the editor are invalid and are not edited in this pass); otherwise,
with "Add Text Entry" pressed, the lines become the old lines plus exactly one
line with the pending start, end, speaker and offscreen flag (and the pending
text in game encoding). -/
theorem addLine_rejects_invalid (env : Env) (ed : Subtitle2Editor)
    (lines : List Subtitle2Line) (inp : NewLineFormInput) (bank : GameSubtitle2Bank)
    (hb : ed.bank ed.m_current_language = some bank) :
    let p := form_fields ed bank.speakers inp
    ((p.m_current_scene_frame.1 < 0 ∨ p.m_current_scene_frame.2 < 0 ∨ p.m_current_scene_text = "") →
        draw_new_cutscene_line_form env ed lines inp = some (p, lines)) ∧
    (inp.frame = none → inp.text = none →
      (ed.m_current_scene_frame.1 < 0 ∨ ed.m_current_scene_frame.2 < 0 ∨
        ed.m_current_scene_text = "") →
        draw_new_cutscene_line_form env ed lines inp = some (p, lines)) ∧
    (¬ (p.m_current_scene_frame.1 < 0 ∨ p.m_current_scene_frame.2 < 0 ∨
          p.m_current_scene_text = "") →
      inp.add_text_entry = true →
        ∃ lines1, draw_new_cutscene_line_form env ed lines inp = some (p, lines1) ∧
          lines1.Perm (lines ++
            [{ start := p.m_current_scene_frame.1
               end_ := p.m_current_scene_frame.2
               text := (env.get_font_bank bank.text_version).convert_utf8_to_game
                 p.m_current_scene_text true
               speaker := p.m_current_scene_speaker
               offscreen := p.m_current_scene_offscreen }]) ∧
          lines1.length = lines.length + 1) := by
  intro p
  have hinv : form_invalid p = true ↔
      (p.m_current_scene_frame.1 < 0 ∨ p.m_current_scene_frame.2 < 0 ∨
        p.m_current_scene_text = "") := by
    simp [form_invalid, isEmpty_eq_true_iff, or_assoc]
  refine ⟨fun h => draw_form_invalid env ed lines inp bank hb (hinv.mpr h), ?_, ?_⟩
  · intro hf ht h
    refine draw_form_invalid env ed lines inp bank hb (hinv.mpr ?_)
    simpa [p, form_fields, edited, hf, ht] using h
  · intro h ha
    have hv : form_invalid p = false := by
      cases hfi : form_invalid p with
      | false => rfl
      | true => exact absurd (hinv.mp hfi) h
    refine ⟨_, draw_form_add env ed lines inp bank hb hv ha, ?_, ?_⟩
    · exact env.std_sort.perm _
    · rw [(env.std_sort.perm _).length_eq]; simp

theorem addLine_rejects_invalid_witness :
    sample_editor.bank sample_editor.m_current_language = some sample_bank ∧
      draw_new_cutscene_line_form sample_env sample_editor [mk_line 0 5 "a"]
          (add_form (-1) 5 "z") =
        some (form_fields sample_editor sample_bank.speakers (add_form (-1) 5 "z"),
          [mk_line 0 5 "a"]) ∧
      (∃ lines1, draw_new_cutscene_line_form sample_env sample_editor [mk_line 0 5 "a"]
          (add_form 7 9 "z") =
        some (form_fields sample_editor sample_bank.speakers (add_form 7 9 "z"), lines1) ∧
        lines1.length = 2) :=
  ⟨rfl, (addLine_rejects_invalid sample_env sample_editor [mk_line 0 5 "a"]
    (add_form (-1) 5 "z") sample_bank rfl).1 (Or.inl (by decide)),
    let ⟨lines1, h, _, hl⟩ := (addLine_rejects_invalid sample_env sample_editor
      [mk_line 0 5 "a"] (add_form 7 9 "z") sample_bank rfl).2.2 (by decide) rfl
    ⟨lines1, h, hl⟩⟩

/-- On the seventeen tied lines of the example below the loop of libstdc++ makes
one partition step and does not reach the heapsort: the result is the same
whatever stands in for `heap`. -/
theorem gnu_sort_tied_lines (heap : List Subtitle2Line → List Subtitle2Line) :
    (gnu_sort heap (tied_lines ++ [mk_line 0 5 "new"])).map (fun l => l.text) =
      ["e8", "new", "e15", "e14", "e13", "e12", "e11", "e10", "e9", "e0", "e7", "e6",
        "e5", "e4", "e3", "e2", "e1"] := by
  rfl

/-- C5, as stated, fails: a scene of sixteen lines "e0" to "e15" that all have
the key (0, 5), sorted by `(start, end)`, and a valid new line "new" with the
same key.  "Add Text Entry" appends it and calls `std::sort` on seventeen
elements, more than the sixteen up to which libstdc++ only runs its insertion
sort: the partition step swaps tied lines.  Afterwards "e8" stands in front of
"e0", the new line is second, and fifteen old lines stand behind it. -/
theorem addLine_tie_order_counterexample :
    SortedByKey tied_lines ∧
      successful_add sample_editor (add_form 0 5 "new") = true ∧
      (∀ l ∈ tied_lines, l.start = 0 ∧ l.end_ = 5) ∧
      (draw_new_cutscene_line_form sample_env_gnu sample_editor tied_lines
          (add_form 0 5 "new")).map (fun r => r.2.map (fun l => l.text)) =
        some ["e8", "new", "e15", "e14", "e13", "e12", "e11", "e10", "e9", "e0", "e7", "e6",
          "e5", "e4", "e3", "e2", "e1"] := by
  decide

/-- C5, amended. After a pass that takes the "Add Text Entry" branch the lines
of the scene are a rearrangement of the old lines and the new line, sorted
non-decreasing by `(start, end)`; for every key the lines with that key are the
old lines with that key (and the new line, if it has that key) in some order. -/
theorem addLine_sorted_rearrangement (env : Env) (ed : Subtitle2Editor)
    (lines : List Subtitle2Line) (inp : NewLineFormInput) (bank : GameSubtitle2Bank)
    (hb : ed.bank ed.m_current_language = some bank)
    (hadd : successful_add ed inp = true) :
    ∃ lines1,
      draw_new_cutscene_line_form env ed lines inp =
        some (form_fields ed bank.speakers inp, lines1) ∧
      lines1.Perm (lines ++
        [form_line (env.get_font_bank bank.text_version) (form_fields ed bank.speakers inp)]) ∧
      SortedByKey lines1 ∧
      ∀ s e : ℚ, (lines1.filter (fun l => decide (l.start = s ∧ l.end_ = e))).Perm
        ((lines ++ [form_line (env.get_font_bank bank.text_version)
          (form_fields ed bank.speakers inp)]).filter (fun l => decide (l.start = s ∧ l.end_ = e))) := by
  obtain ⟨bank1, hb1, hv, ha⟩ := (successful_add_iff ed inp).mp hadd
  have hbb : bank1 = bank := by rw [hb] at hb1; exact (Option.some.inj hb1).symm
  subst hbb
  refine ⟨_, draw_form_add env ed lines inp bank1 hb hv ha, env.std_sort.perm _,
    StdSort.sortedByKey _ _, fun s e => (env.std_sort.perm _).filter _⟩

theorem addLine_sorted_rearrangement_witness :
    sample_editor.bank sample_editor.m_current_language = some sample_bank ∧
      successful_add sample_editor (add_form 0 5 "z") = true ∧
      ∃ lines1,
        draw_new_cutscene_line_form sample_env_gnu sample_editor [mk_line 0 5 "a"]
            (add_form 0 5 "z") =
          some (form_fields sample_editor sample_bank.speakers (add_form 0 5 "z"), lines1) ∧
        lines1.Perm ([mk_line 0 5 "a"] ++
          [form_line (sample_env_gnu.get_font_bank sample_bank.text_version)
            (form_fields sample_editor sample_bank.speakers (add_form 0 5 "z"))]) ∧
        SortedByKey lines1 ∧
        ∀ s e : ℚ, (lines1.filter (fun l => decide (l.start = s ∧ l.end_ = e))).Perm
          (([mk_line 0 5 "a"] ++ [form_line (sample_env_gnu.get_font_bank sample_bank.text_version)
            (form_fields sample_editor sample_bank.speakers (add_form 0 5 "z"))]).filter
              (fun l => decide (l.start = s ∧ l.end_ = e))) :=
  ⟨rfl, by decide,
    addLine_sorted_rearrangement sample_env_gnu sample_editor [mk_line 0 5 "a"]
      (add_form 0 5 "z") sample_bank rfl (by decide)⟩

/-! ## The line loop of `draw_subtitle_options` -/

theorem select_speaker_untouched (speakers : UMap String) (selectable : Nat → Bool)
    (h : ∀ i, selectable i = false) (names : List String) :
    ∀ (i : Nat) (cur : String), select_speaker speakers selectable i names cur = cur := by
  induction names with
  | nil => intro i cur; rfl
  | cons n rest ih =>
    intro i cur
    simp [select_speaker, h, ih]

theorem line_loop_size (font : GameTextFontBank) (speakers : UMap String)
    (speaker_names : List String) (inp : Nat → LineInput) (lines : List Subtitle2Line) :
    ∀ k i : Nat, 1 ≤ i + lines.length →
      1 ≤ i + (line_loop font speakers speaker_names inp k i lines).length := by
  induction lines with
  | nil => intro k i h; simpa [line_loop] using h
  | cons line rest ih =>
    intro k i _
    unfold line_loop
    simp only []
    split
    · split
      · rename_i hdel
        exact ih (k + 1) i (by omega)
      · simp only [List.length_cons]; omega
    · simp only [List.length_cons]; omega

theorem line_loop_no_delete (font : GameTextFontBank) (speakers : UMap String)
    (speaker_names : List String) (inp : Nat → LineInput)
    (hnd : ∀ k, (inp k).delete = false) (lines : List Subtitle2Line) :
    ∀ k i : Nat, line_loop font speakers speaker_names inp k i lines =
      (lines.enumFrom k).map
        (fun p => edited_line font speakers speaker_names (inp p.1) p.2) := by
  induction lines with
  | nil => intro k i; rfl
  | cons line rest ih =>
    intro k i
    unfold line_loop
    simp only [hnd, ih, List.enumFrom_cons, List.map_cons]
    unfold edited_line
    split <;> simp

theorem line_loop_nonempty (font : GameTextFontBank) (speakers : UMap String)
    (speaker_names : List String) (inp : Nat → LineInput) (lines : List Subtitle2Line)
    (hne : lines ≠ []) : line_loop font speakers speaker_names inp 0 0 lines ≠ [] := by
  have hlen : 1 ≤ lines.length := List.length_pos.mpr hne
  have h := line_loop_size font speakers speaker_names inp lines 0 0 (by omega)
  intro hnil
  rw [hnil] at h
  simp at h

/-- C2. One pass of the line loop of `draw_subtitle_options`, whatever the
operator does: a scene with at least one line keeps at least one line, and a
scene with exactly one line keeps exactly one line ("Delete" is not offered
while `scene.lines.size()` is 1). -/
theorem deleteLine_keeps_last_line (font : GameTextFontBank) (speakers : UMap String)
    (speaker_names : List String) (inp : Nat → LineInput) (lines : List Subtitle2Line) :
    (lines ≠ [] → line_loop font speakers speaker_names inp 0 0 lines ≠ []) ∧
      (lines.length = 1 →
        (line_loop font speakers speaker_names inp 0 0 lines).length = 1) := by
  refine ⟨line_loop_nonempty font speakers speaker_names inp lines, ?_⟩
  intro h1
  match lines, h1 with
  | [line], _ =>
    unfold line_loop
    simp only []
    split
    · simp [line_loop]
    · simp [line_loop]

theorem deleteLine_keeps_last_line_witness :
    ([mk_line 0 0 "x"] ≠ [] ∧
        line_loop plain_font sample_bank.speakers ["joe"] (fun _ => delete_line) 0 0
          [mk_line 0 0 "x"] ≠ []) ∧
      (([mk_line 0 0 "x"] : List Subtitle2Line).length = 1 ∧
        (line_loop plain_font sample_bank.speakers ["joe"] (fun _ => delete_line) 0 0
          [mk_line 0 0 "x"]).length = 1) :=
  ⟨⟨by simp, (deleteLine_keeps_last_line plain_font sample_bank.speakers ["joe"]
      (fun _ => delete_line) [mk_line 0 0 "x"]).1 (by simp)⟩,
    ⟨rfl, (deleteLine_keeps_last_line plain_font sample_bank.speakers ["joe"]
      (fun _ => delete_line) [mk_line 0 0 "x"]).2 rfl⟩⟩

theorem draw_subtitle_options_eq (env : Env) (ed : Subtitle2Editor) (scene : Subtitle2Scene)
    (current_scene : Bool) (inp : SubtitleOptionsInput) (ed1 : Subtitle2Editor)
    (lines1 : List Subtitle2Line) (bank : GameSubtitle2Bank)
    (hform : (if current_scene then draw_new_cutscene_line_form env ed scene.lines inp.form
      else some (ed, scene.lines)) = some (ed1, lines1))
    (hb : ed1.bank ed1.m_current_language = some bank) :
    draw_subtitle_options env ed scene current_scene inp =
      some (ed1, ⟨line_loop (env.get_font_bank bank.text_version) bank.speakers
        ed1.m_speaker_names inp.line 0 0 lines1⟩) := by
  unfold draw_subtitle_options
  simp only [hform, hb]

theorem draw_form_returns (env : Env) (ed : Subtitle2Editor) (lines : List Subtitle2Line)
    (inp : NewLineFormInput) (bank : GameSubtitle2Bank)
    (hb : ed.bank ed.m_current_language = some bank) :
    ∃ lines1, draw_new_cutscene_line_form env ed lines inp =
        some (form_fields ed bank.speakers inp, lines1) ∧ lines.length ≤ lines1.length := by
  by_cases hv : form_invalid (form_fields ed bank.speakers inp) = true
  · exact ⟨lines, draw_form_invalid env ed lines inp bank hb hv, le_refl _⟩
  · have hv : form_invalid (form_fields ed bank.speakers inp) = false := by simpa using hv
    cases ha : inp.add_text_entry with
    | false => exact ⟨lines, draw_form_idle env ed lines inp bank hb ha, le_refl _⟩
    | true =>
      refine ⟨_, draw_form_add env ed lines inp bank hb hv ha, ?_⟩
      rw [(env.std_sort.perm _).length_eq]; simp

/-- The pass of `draw_subtitle_options` as a whole returns when the bank of the
current language exists, and a scene with at least one line keeps at least one
line (the form can only add). -/
theorem draw_subtitle_options_nonempty (env : Env) (ed : Subtitle2Editor)
    (scene : Subtitle2Scene) (current_scene : Bool) (inp : SubtitleOptionsInput)
    (bank : GameSubtitle2Bank) (hb : ed.bank ed.m_current_language = some bank)
    (hne : scene.lines ≠ []) :
    ∃ ed1 scene1, draw_subtitle_options env ed scene current_scene inp = some (ed1, scene1) ∧
      scene1.lines ≠ [] := by
  cases current_scene with
  | false =>
    exact ⟨_, _, draw_subtitle_options_eq env ed scene false inp ed scene.lines bank (by simp) hb,
      line_loop_nonempty _ _ _ _ _ hne⟩
  | true =>
    obtain ⟨lines1, hd, hlen⟩ := draw_form_returns env ed scene.lines inp.form bank hb
    have hne1 : lines1 ≠ [] := by
      intro h0
      rw [h0] at hlen
      exact hne (List.length_eq_zero.mp (by simpa using hlen))
    exact ⟨_, _, draw_subtitle_options_eq env ed scene true inp
        (form_fields ed bank.speakers inp.form) lines1 bank (by simpa using hd) hb,
      line_loop_nonempty _ _ _ _ _ hne1⟩

theorem edited_line_untouched (font : GameTextFontBank) (speakers : UMap String)
    (speaker_names : List String) (I : LineInput) (hI : I.untouched) (line : Subtitle2Line) :
    edited_line font speakers speaker_names I line =
      reconverted font line := by
  obtain ⟨ht, hx, ho, _, hs⟩ := hI
  unfold edited_line
  split
  · simp [ht, hx, ho, edited, checkbox, select_speaker_untouched speakers I.selectable hs,
      reconverted]
  · rfl

theorem map_enumFrom_snd {α β : Type} (f : α → β) (l : List α) (k : Nat) :
    (l.enumFrom k).map (fun p => f p.2) = l.map f := by
  induction l generalizing k with
  | nil => rfl
  | cons a rest ih => simp [List.enumFrom_cons, ih]

theorem map_eq_self_iff {α : Type} (f : α → α) (l : List α) :
    l.map f = l ↔ ∀ x ∈ l, f x = x := by
  induction l with
  | nil => simp
  | cons a rest ih => simp [ih]

/-- C3, as stated, fails: a scene with lines at starts 0, 10, 20, sorted by
`(start, end)`; the operator edits the first line's frames to (25, 30) in
`draw_subtitle_options`.  The pass leaves the lines at starts 25, 10, 20, which
is not sorted. -/
theorem updateLine_not_resorted_counterexample :
    SortedByKey [mk_line 0 5 "a", mk_line 10 15 "b", mk_line 20 25 "c"] ∧
      (draw_subtitle_options sample_env sample_editor
          { lines := [mk_line 0 5 "a", mk_line 10 15 "b", mk_line 20 25 "c"] } true
          { form := idle_form
            line := fun k => if k = 0 then retime_line 25 30 else idle_line }).map
            (fun r => r.2.lines) =
        some [mk_line 25 30 "a", mk_line 10 15 "b", mk_line 20 25 "c"] ∧
      ¬ SortedByKey [mk_line 25 30 "a", mk_line 10 15 "b", mk_line 20 25 "c"] := by
  decide

theorem draw_subtitle_options_in_place (env : Env) (ed : Subtitle2Editor)
    (scene : Subtitle2Scene) (current_scene : Bool) (inp : SubtitleOptionsInput)
    (bank : GameSubtitle2Bank)
    (hb : ed.bank ed.m_current_language = some bank)
    (hform : inp.form.add_text_entry = false)
    (hnd : ∀ k, (inp.line k).delete = false) :
    ∃ ed1, draw_subtitle_options env ed scene current_scene inp =
      some (ed1, ⟨scene.lines.enum.map (fun p =>
        edited_line (env.get_font_bank bank.text_version) bank.speakers ed.m_speaker_names
          (inp.line p.1) p.2)⟩) := by
  cases current_scene with
  | false =>
    refine ⟨ed, ?_⟩
    rw [draw_subtitle_options_eq env ed scene false inp ed scene.lines bank (by simp) hb,
      line_loop_no_delete _ _ _ _ hnd]
    rfl
  | true =>
    refine ⟨form_fields ed bank.speakers inp.form, ?_⟩
    have hd := draw_form_idle env ed scene.lines inp.form bank hb hform
    rw [draw_subtitle_options_eq env ed scene true inp (form_fields ed bank.speakers inp.form)
      scene.lines bank (by simpa using hd) hb, line_loop_no_delete _ _ _ _ hnd]
    rfl

/-- C3, amended. `draw_subtitle_options` writes an edit of a line in place and
does not reorder: in a pass in which no line is added or deleted the pass
returns, the scene keeps its length and the line at every index `j` becomes
that same line with the values of its own widgets (`edited_line`), whether or
not the result is sorted by `(start, end)`. -/
theorem updateLine_in_place (env : Env) (ed : Subtitle2Editor) (scene : Subtitle2Scene)
    (current_scene : Bool) (inp : SubtitleOptionsInput) (bank : GameSubtitle2Bank)
    (hb : ed.bank ed.m_current_language = some bank)
    (hform : inp.form.add_text_entry = false)
    (hnd : ∀ k, (inp.line k).delete = false) :
    ∃ ed1 scene1, draw_subtitle_options env ed scene current_scene inp = some (ed1, scene1) ∧
      scene1.lines.length = scene.lines.length ∧
      ∀ (j : Nat) (hj : j < scene.lines.length),
        scene1.lines[j]? = some (edited_line (env.get_font_bank bank.text_version) bank.speakers
          ed.m_speaker_names (inp.line j) (scene.lines[j])) := by
  obtain ⟨ed1, hd⟩ := draw_subtitle_options_in_place env ed scene current_scene inp bank hb
    hform hnd
  refine ⟨ed1, _, hd, by simp, ?_⟩
  intro j hj
  simp [List.getElem?_map, List.getElem?_enum, hj]

theorem updateLine_in_place_witness :
    sample_editor.bank sample_editor.m_current_language = some sample_bank ∧
      idle_form.add_text_entry = false ∧
      (∀ k, ((fun k => if k = 0 then retime_line 25 30 else idle_line) k).delete = false) ∧
      ∃ ed1 scene1, draw_subtitle_options sample_env sample_editor
          { lines := [mk_line 0 5 "a", mk_line 10 15 "b", mk_line 20 25 "c"] } true
          { form := idle_form, line := fun k => if k = 0 then retime_line 25 30 else idle_line } =
            some (ed1, scene1) ∧
        scene1.lines.length = 3 :=
  ⟨rfl, rfl, fun k => by by_cases h : k = 0 <;> simp [h, retime_line, idle_line],
    let ⟨ed1, scene1, h, hl, _⟩ := updateLine_in_place sample_env sample_editor
      { lines := [mk_line 0 5 "a", mk_line 10 15 "b", mk_line 20 25 "c"] } true
      { form := idle_form, line := fun k => if k = 0 then retime_line 25 30 else idle_line }
      sample_bank rfl rfl
      (fun k => by by_cases h : k = 0 <;> simp [h, retime_line, idle_line])
    ⟨ed1, scene1, h, hl⟩⟩

/-- C10. A pass of `draw_subtitle_options` in which the operator changes no
widget and presses no button (nodes and combos may be open) returns, and the
scene has the same lines in the same order with start, end, speaker and
offscreen flag unchanged and each text replaced by
`convert_utf8_to_game(convert_game_to_utf8(text), true)`; so the scene is
unchanged exactly when that round trip is the identity on every text. -/
theorem view_without_input (env : Env) (ed : Subtitle2Editor) (scene : Subtitle2Scene)
    (current_scene : Bool) (inp : SubtitleOptionsInput) (bank : GameSubtitle2Bank)
    (hb : ed.bank ed.m_current_language = some bank)
    (hform : inp.form.untouched)
    (hlines : ∀ k, (inp.line k).untouched) :
    ∃ ed1 scene1, draw_subtitle_options env ed scene current_scene inp = some (ed1, scene1) ∧
      scene1.lines = scene.lines.map (reconverted (env.get_font_bank bank.text_version)) ∧
      (scene1.lines = scene.lines ↔ ∀ l ∈ scene.lines,
        (env.get_font_bank bank.text_version).convert_utf8_to_game
            ((env.get_font_bank bank.text_version).convert_game_to_utf8 l.text) true = l.text) := by
  obtain ⟨ed1, hd⟩ := draw_subtitle_options_in_place env ed scene current_scene inp bank hb
    hform.2.2.2.1 (fun k => (hlines k).2.2.2.1)
  have hmap : scene.lines.enum.map (fun p =>
        edited_line (env.get_font_bank bank.text_version) bank.speakers ed.m_speaker_names
          (inp.line p.1) p.2) =
      scene.lines.map (reconverted (env.get_font_bank bank.text_version)) := by
    rw [← map_enumFrom_snd _ scene.lines 0]
    apply List.map_congr_left
    intro p _
    exact edited_line_untouched _ _ _ _ (hlines p.1) p.2
  refine ⟨ed1, _, hd, hmap, ?_⟩
  simp only [hmap]
  rw [map_eq_self_iff]
  constructor
  · intro h l hl
    have := h l hl
    exact congrArg Subtitle2Line.text this
  · intro h l hl
    have := h l hl
    cases l
    simp_all [reconverted]

theorem view_without_input_witness :
    sample_editor.bank sample_editor.m_current_language = some sample_bank ∧
      ∃ ed1 scene1, draw_subtitle_options sample_env_caps sample_editor
          { lines := [mk_line 0 5 "a", mk_line 10 15 "B"] } true
          { form := idle_form, line := fun _ => idle_line } = some (ed1, scene1) ∧
        scene1.lines = ([mk_line 0 5 "a", mk_line 10 15 "B"]).map
          (reconverted (sample_env_caps.get_font_bank sample_bank.text_version)) ∧
        (scene1.lines = [mk_line 0 5 "a", mk_line 10 15 "B"] ↔
          ∀ l ∈ [mk_line 0 5 "a", mk_line 10 15 "B"],
            (sample_env_caps.get_font_bank sample_bank.text_version).convert_utf8_to_game
              ((sample_env_caps.get_font_bank sample_bank.text_version).convert_game_to_utf8 l.text)
                true = l.text) :=
  ⟨rfl, view_without_input sample_env_caps sample_editor
    { lines := [mk_line 0 5 "a", mk_line 10 15 "B"] } true
    { form := idle_form, line := fun _ => idle_line } sample_bank rfl
    ⟨rfl, rfl, rfl, rfl, fun _ => rfl⟩ (fun _ => ⟨rfl, rfl, rfl, rfl, fun _ => rfl⟩)⟩

/-! ## Banks and maps -/

theorem lookup_map_set {β : Type} (l : Int) (b : β) (m : List (Int × β)) (l1 : Int) :
    (m.map (fun p => if p.1 = l then (l, b) else p)).lookup l1 =
      if l1 = l then (m.lookup l).map (fun _ => b) else m.lookup l1 := by
  induction m with
  | nil => by_cases h : l1 = l <;> simp [h]
  | cons p rest ih =>
    obtain ⟨k, v⟩ := p
    rw [List.map_cons]
    by_cases hk : k = l
    · rw [if_pos hk, List.lookup_cons, List.lookup_cons, ih]
      subst hk
      by_cases h : l1 = k
      · subst h; simp
      · have hb : (l1 == k) = false := by simpa using h
        simp [hb, h, List.lookup_cons]
    · rw [if_neg hk, List.lookup_cons, List.lookup_cons, ih]
      by_cases h : l1 = l
      · subst h
        have hb : (l1 == k) = false := by simpa using (Ne.symm hk)
        simp [hb]
      · by_cases h2 : l1 = k
        · subst h2; simp [h]
        · have hb : (l1 == k) = false := by simpa using h2
          have hb2 : (l == k) = false := by simpa using (Ne.symm hk)
          simp [hb, h, List.lookup_cons]

theorem bank_set_bank_same (ed : Subtitle2Editor) (l : Int) (b b0 : GameSubtitle2Bank)
    (h : ed.bank l = some b0) : (ed.set_bank l b).bank l = some b := by
  unfold Subtitle2Editor.bank at h
  simp [Subtitle2Editor.bank, Subtitle2Editor.set_bank, lookup_map_set, h]

theorem bank_set_bank_other (ed : Subtitle2Editor) (l l1 : Int) (b : GameSubtitle2Bank)
    (h : l1 ≠ l) : (ed.set_bank l b).bank l1 = ed.bank l1 := by
  simp [Subtitle2Editor.bank, Subtitle2Editor.set_bank, lookup_map_set, h]

theorem is_scene_in_current_lang_eq (ed : Subtitle2Editor) (bank : GameSubtitle2Bank)
    (hb : ed.bank ed.m_current_language = some bank) (name : String) :
    ed.is_scene_in_current_lang name = some (decide (bank.scenes.count name > 0)) := by
  simp [Subtitle2Editor.is_scene_in_current_lang, hb]

theorem umap_count_pos_iff {V : Type} (m : UMap V) (k : String) :
    m.count k > 0 ↔ k ∈ m.map Prod.fst := by
  unfold UMap.count
  induction m with
  | nil => simp
  | cons p rest ih =>
    obtain ⟨k1, v⟩ := p
    by_cases h : k = k1
    · subst h; simp [List.lookup]
    · have hb : (k == k1) = false := by simpa using h
      simp only [List.lookup, hb, List.map_cons, List.mem_cons, h, false_or]
      exact ih

theorem umap_count_eq_zero_iff {V : Type} (m : UMap V) (k : String) :
    m.count k = 0 ↔ k ∉ m.map Prod.fst := by
  rw [← umap_count_pos_iff]; omega

theorem umap_keys_insert {V : Type} (m : UMap V) (k : String) (v : V) :
    (m.insert k v).map Prod.fst = if m.count k = 0 then m.map Prod.fst ++ [k] else m.map Prod.fst := by
  unfold UMap.insert
  split <;> simp

theorem umap_keys_assign {V : Type} (m : UMap V) (k : String) (v : V) :
    (m.assign k v).map Prod.fst = m.map Prod.fst := by
  unfold UMap.assign
  induction m with
  | nil => rfl
  | cons p rest ih =>
    simp only [List.map_cons, List.cons.injEq]
    refine ⟨?_, ih⟩
    split
    · rename_i h; exact h.symm
    · rfl

theorem umap_keys_erase {V : Type} (m : UMap V) (k : String) :
    (m.erase k).map Prod.fst = (m.map Prod.fst).filter (fun n => n ≠ k) := by
  unfold UMap.erase
  rw [List.filter_map]
  rfl

/-! ## `draw_window`: adding a scene -/

theorem lookup_append_new {V : Type} (m : UMap V) (name : String) (v : V)
    (h : m.count name = 0) : UMap.at (m ++ [(name, v)]) name = some v := by
  have h0 : m.lookup name = none := by
    unfold UMap.count at h
    cases hl : m.lookup name with
    | none => rfl
    | some v => simp [hl] at h
  unfold UMap.at
  induction m with
  | nil => simp [List.lookup_cons]
  | cons p rest ih =>
    obtain ⟨k, v⟩ := p
    rw [List.lookup_cons] at h0
    rw [List.cons_append, List.lookup_cons]
    cases hk : name == k with
    | true => simp [hk] at h0
    | false =>
      simp only [hk] at h0 ⊢
      refine ih ?_ h0
      simp [UMap.count, h0]

theorem add_scene_pressed_eq (ed : Subtitle2Editor) (bank : GameSubtitle2Bank)
    (hb : ed.bank ed.m_current_language = some bank)
    (hex : bank.scenes.count ed.m_new_scene_name = 0) :
    ∃ ed1, add_scene_pressed ed = some ed1 ∧
      ed1.m_current_language = ed.m_current_language ∧
      ed1.m_add_new_scene_as_current = ed.m_add_new_scene_as_current ∧
      ed1.bank ed.m_current_language =
        some { bank with scenes := bank.scenes ++ [(ed.m_new_scene_name, { lines := [] })] } := by
  have hbank1 : bank.add_scene ed.m_new_scene_name { lines := [] } =
      some { bank with scenes := bank.scenes ++ [(ed.m_new_scene_name, { lines := [] })] } := by
    simp [GameSubtitle2Bank.add_scene, UMap.insert, hex]
  have hat := lookup_append_new bank.scenes ed.m_new_scene_name ({ lines := [] } : Subtitle2Scene) hex
  have hset := bank_set_bank_same ed ed.m_current_language
    { bank with scenes := bank.scenes ++ [(ed.m_new_scene_name, { lines := [] })] } bank hb
  unfold add_scene_pressed
  simp only [hb, hbank1]
  by_cases hc : ed.m_add_new_scene_as_current = true
  · have hc2 : (ed.set_bank ed.m_current_language
        { bank with scenes := bank.scenes ++ [(ed.m_new_scene_name, { lines := [] })] }
        ).m_add_new_scene_as_current = true := hc
    have hn : (ed.set_bank ed.m_current_language
        { bank with scenes := bank.scenes ++ [(ed.m_new_scene_name, { lines := [] })] }
        ).m_new_scene_name = ed.m_new_scene_name := rfl
    rw [if_pos hc2, hn]
    simp only [hat]
    exact ⟨_, rfl, rfl, rfl, hset⟩
  · have hc2 : ¬ (ed.set_bank ed.m_current_language
        { bank with scenes := bank.scenes ++ [(ed.m_new_scene_name, { lines := [] })] }
        ).m_add_new_scene_as_current = true := hc
    rw [if_neg hc2]
    exact ⟨_, rfl, rfl, rfl, hset⟩

theorem add_scene_rejected (ed : Subtitle2Editor) (inp : AddSceneInput) (bank : GameSubtitle2Bank)
    (hb : ed.bank ed.m_current_language = some bank)
    (hex : bank.scenes.count (edited inp.new_scene_name ed.m_new_scene_name) > 0) :
    ∃ ed1, draw_window_add_scene ed inp = some ed1 ∧ ed1.m_banks = ed.m_banks ∧
      ed1.m_current_scene = ed.m_current_scene ∧
      ed1.m_current_scene_name = ed.m_current_scene_name := by
  refine ⟨new_scene_inputs ed inp, ?_, rfl, rfl, rfl⟩
  have h1 := is_scene_in_current_lang_eq (new_scene_inputs ed inp) bank hb
    (new_scene_inputs ed inp).m_new_scene_name
  have hex2 : bank.scenes.count (new_scene_inputs ed inp).m_new_scene_name > 0 := hex
  unfold draw_window_add_scene
  simp only [h1, hex2, decide_True, Bool.not_true, Bool.false_and]
  rfl

theorem add_scene_accepted (ed : Subtitle2Editor) (inp : AddSceneInput) (bank : GameSubtitle2Bank)
    (hb : ed.bank ed.m_current_language = some bank)
    (hex : bank.scenes.count (edited inp.new_scene_name ed.m_new_scene_name) = 0)
    (hne : edited inp.new_scene_name ed.m_new_scene_name ≠ "")
    (hadd : inp.add_scene = true) :
    ∃ ed1, draw_window_add_scene ed inp = some ed1 ∧
      ed1.m_current_language = ed.m_current_language ∧
      ed1.bank ed.m_current_language = some { bank with scenes :=
        bank.scenes ++ [(edited inp.new_scene_name ed.m_new_scene_name, { lines := [] })] } := by
  have h1 := is_scene_in_current_lang_eq (new_scene_inputs ed inp) bank hb
    (new_scene_inputs ed inp).m_new_scene_name
  have hex2 : bank.scenes.count (new_scene_inputs ed inp).m_new_scene_name = 0 := hex
  have hex3 : ¬ bank.scenes.count (new_scene_inputs ed inp).m_new_scene_name > 0 := by omega
  have hne2 : (new_scene_inputs ed inp).m_new_scene_name.isEmpty = false := by
    cases h : (new_scene_inputs ed inp).m_new_scene_name.isEmpty with
    | false => rfl
    | true => exact absurd ((isEmpty_eq_true_iff _).mp h) hne
  obtain ⟨ed2, hp, hl, _, hbk⟩ := add_scene_pressed_eq (new_scene_inputs ed inp) bank hb hex2
  unfold draw_window_add_scene
  simp only [h1, hex3, hne2, hadd, hp, decide_False, Bool.not_false, Bool.and_self, if_true]
  exact ⟨_, rfl, hl, hbk⟩

theorem add_scene_empty_name (ed : Subtitle2Editor) (inp : AddSceneInput)
    (bank : GameSubtitle2Bank) (hb : ed.bank ed.m_current_language = some bank)
    (he : edited inp.new_scene_name ed.m_new_scene_name = "") :
    ∃ ed1, draw_window_add_scene ed inp = some ed1 ∧ ed1.m_banks = ed.m_banks := by
  refine ⟨new_scene_inputs ed inp, ?_, rfl⟩
  have h1 := is_scene_in_current_lang_eq (new_scene_inputs ed inp) bank hb
    (new_scene_inputs ed inp).m_new_scene_name
  have he2 : (new_scene_inputs ed inp).m_new_scene_name.isEmpty = true :=
    (isEmpty_eq_true_iff _).mpr he
  unfold draw_window_add_scene
  simp only [h1, he2, Bool.not_true, Bool.and_false]
  rfl

/-- C6. In `draw_window`, with `name` the content of "New Scene Name" in this
pass: when `name` is already a scene of the current bank (or is empty) the
pass returns with every bank, hence the scene of that name, as it was,
whatever is pressed; when it is not, is non-empty and "Add Scene" is pressed,
the pass returns and `is_scene_in_current_lang(name)` is true afterwards, and a
further request for the same name is rejected with the banks untouched. -/
theorem addScene_guarded (ed : Subtitle2Editor) (inp : AddSceneInput) (bank : GameSubtitle2Bank)
    (hb : ed.bank ed.m_current_language = some bank) :
    (bank.scenes.count (edited inp.new_scene_name ed.m_new_scene_name) > 0 →
      ∃ ed1, draw_window_add_scene ed inp = some ed1 ∧ ed1.m_banks = ed.m_banks ∧
        ed1.m_current_scene = ed.m_current_scene ∧
        ed1.m_current_scene_name = ed.m_current_scene_name) ∧
    (edited inp.new_scene_name ed.m_new_scene_name = "" →
      ∃ ed1, draw_window_add_scene ed inp = some ed1 ∧ ed1.m_banks = ed.m_banks) ∧
    (bank.scenes.count (edited inp.new_scene_name ed.m_new_scene_name) = 0 →
      edited inp.new_scene_name ed.m_new_scene_name ≠ "" → inp.add_scene = true →
      ∃ ed1, draw_window_add_scene ed inp = some ed1 ∧
        ed1.is_scene_in_current_lang (edited inp.new_scene_name ed.m_new_scene_name) =
          some true ∧
        ∀ inp2 : AddSceneInput,
          inp2.new_scene_name = some (edited inp.new_scene_name ed.m_new_scene_name) →
          ∃ ed2, draw_window_add_scene ed1 inp2 = some ed2 ∧ ed2.m_banks = ed1.m_banks) := by
  refine ⟨add_scene_rejected ed inp bank hb, add_scene_empty_name ed inp bank hb, ?_⟩
  intro hex hne hadd
  obtain ⟨ed1, hd, hl, hbk⟩ := add_scene_accepted ed inp bank hb hex hne hadd
  have hbk1 : ed1.bank ed1.m_current_language = some { bank with scenes :=
      bank.scenes ++ [(edited inp.new_scene_name ed.m_new_scene_name, { lines := [] })] } := by
    rw [hl]; exact hbk
  have hcount : UMap.count (bank.scenes ++
      [(edited inp.new_scene_name ed.m_new_scene_name, ({ lines := [] } : Subtitle2Scene))])
      (edited inp.new_scene_name ed.m_new_scene_name) > 0 := by
    rw [umap_count_pos_iff]; simp
  refine ⟨ed1, hd, ?_, ?_⟩
  · rw [is_scene_in_current_lang_eq ed1 _ hbk1]
    simp [hcount]
  · intro inp2 h2
    obtain ⟨ed2, hd2, hbanks, _, _⟩ := add_scene_rejected ed1 inp2 _ hbk1
      (by simpa [h2, edited] using hcount)
    exact ⟨ed2, hd2, hbanks⟩

theorem addScene_guarded_witness :
    sample_editor.bank sample_editor.m_current_language = some sample_bank ∧
      (∃ ed1, draw_window_add_scene sample_editor
          { new_scene_name := some "intro", filter := none, add_scene := true,
            add_as_current_click := false } = some ed1 ∧
        ed1.m_banks = sample_editor.m_banks ∧
        ed1.m_current_scene = sample_editor.m_current_scene ∧
        ed1.m_current_scene_name = sample_editor.m_current_scene_name) ∧
      (∃ ed1, draw_window_add_scene sample_editor
          { new_scene_name := some "credits", filter := none, add_scene := true,
            add_as_current_click := false } = some ed1 ∧
        ed1.is_scene_in_current_lang "credits" = some true) :=
  ⟨rfl, (addScene_guarded sample_editor
    { new_scene_name := some "intro", filter := none, add_scene := true,
      add_as_current_click := false } sample_bank rfl).1 (by decide),
    let ⟨ed1, h, hin, _⟩ := (addScene_guarded sample_editor
      { new_scene_name := some "credits", filter := none, add_scene := true,
        add_as_current_click := false } sample_bank rfl).2.2 (by decide) (by decide) rfl
    ⟨ed1, h, hin⟩⟩

/-! ## `draw_speaker_options` -/

theorem lookup_append_other {V : Type} (m : UMap V) (k k1 : String) (v : V) (h : k ≠ k1) :
    (m ++ [(k1, v)]).lookup k = m.lookup k := by
  induction m with
  | nil =>
    have hb : (k == k1) = false := by simpa using h
    simp [List.lookup_cons, hb]
  | cons p rest ih =>
    obtain ⟨k2, v2⟩ := p
    rw [List.cons_append, List.lookup_cons, List.lookup_cons, ih]

theorem lookup_insert_other {V : Type} (m : UMap V) (k k1 : String) (v : V) (h : k ≠ k1) :
    (m.insert k1 v).lookup k = m.lookup k := by
  unfold UMap.insert
  split
  · exact lookup_append_other m k k1 v h
  · rfl

theorem erase_eq_filter {V : Type} (m : UMap V) (k : String) :
    m.erase k = m.filter (fun p => !(p.1 == k)) := by
  unfold UMap.erase
  congr 1
  funext p
  by_cases h : p.1 = k <;> simp [h]

theorem lookup_erase_other {V : Type} (m : UMap V) (k k1 : String) (h : k ≠ k1) :
    (m.erase k1).lookup k = m.lookup k := by
  rw [erase_eq_filter]
  induction m with
  | nil => rfl
  | cons p rest ih =>
    obtain ⟨k2, v2⟩ := p
    by_cases h2 : k2 = k1
    · subst h2
      have hb : (k == k2) = false := by simpa using h
      rw [List.filter_cons, List.lookup_cons]
      simp only [beq_self_eq_true, Bool.not_true, hb]
      exact ih
    · have hb2 : (k2 == k1) = false := by simpa using h2
      rw [List.filter_cons]
      simp only [hb2, Bool.not_false, if_true]
      rw [List.lookup_cons, List.lookup_cons, ih]

theorem lookup_erase_self {V : Type} (m : UMap V) (k : String) :
    (m.erase k).lookup k = none := by
  rw [erase_eq_filter]
  induction m with
  | nil => rfl
  | cons p rest ih =>
    obtain ⟨k2, v2⟩ := p
    by_cases h2 : k2 = k
    · subst h2
      rw [List.filter_cons]
      simp only [beq_self_eq_true, Bool.not_true]
      exact ih
    · have hb : (k == k2) = false := by simpa using (Ne.symm h2)
      have hb2 : (k2 == k) = false := by simpa using h2
      rw [List.filter_cons]
      simp only [hb2, Bool.not_false, if_true]
      rw [List.lookup_cons]
      simp only [hb]
      exact ih

theorem lookup_assign {V : Type} (m : UMap V) (k k1 : String) (v : V) :
    (m.assign k1 v).lookup k = if k = k1 then (m.lookup k1).map (fun _ => v) else m.lookup k := by
  unfold UMap.assign
  induction m with
  | nil => by_cases h : k = k1 <;> simp [h]
  | cons p rest ih =>
    obtain ⟨k2, v2⟩ := p
    rw [List.map_cons]
    by_cases hk : k2 = k1
    · rw [if_pos hk, List.lookup_cons, ih]
      subst hk
      by_cases h : k = k2
      · subst h; simp [List.lookup_cons]
      · have hb : (k == k2) = false := by simpa using h
        simp [hb, h, List.lookup_cons]
    · rw [if_neg hk, List.lookup_cons, ih]
      by_cases h : k = k1
      · subst h
        have hb : (k == k2) = false := by simpa using (Ne.symm hk)
        simp [hb, List.lookup_cons]
      · by_cases h2 : k = k2
        · subst h2; simp [h, List.lookup_cons]
        · have hb : (k == k2) = false := by simpa using h2
          simp [hb, h, List.lookup_cons]

theorem umap_count_eq_zero_lookup {V : Type} (m : UMap V) (k : String) :
    m.count k = 0 ↔ m.lookup k = none := by
  unfold UMap.count
  cases m.lookup k <;> simp

theorem speaker_step_other (font : GameTextFontBank) (input : Option String)
    (sp : UMap String) (name n : String) (hne : name ≠ n) :
    (speaker_step font input sp n).lookup name = sp.lookup name := by
  unfold speaker_step
  simp only []
  split
  · split
    · exact lookup_insert_other _ _ _ _ hne
    · rfl
  · split
    · exact lookup_erase_other _ _ _ hne
    · rw [lookup_assign, if_neg hne]

theorem speaker_loop_other (font : GameTextFontBank) (input : Nat → Option String)
    (name : String) (names : List String) (hn : name ∉ names) :
    ∀ (i : Nat) (sp : UMap String),
      (speaker_loop font input i names sp).lookup name = sp.lookup name := by
  induction names with
  | nil => intro i sp; rfl
  | cons n rest ih =>
    intro i sp
    have hne : name ≠ n := fun h => hn (by simp [h])
    have hrest : name ∉ rest := fun h => hn (by simp [h])
    rw [speaker_loop, ih hrest, speaker_step_other _ _ _ _ _ hne]

theorem speaker_loop_append (font : GameTextFontBank) (input : Nat → Option String)
    (pre rest : List String) :
    ∀ (i : Nat) (sp : UMap String),
      speaker_loop font input i (pre ++ rest) sp =
        speaker_loop font input (i + pre.length) rest (speaker_loop font input i pre sp) := by
  induction pre with
  | nil => intro i sp; rfl
  | cons n pre ih =>
    intro i sp
    have hidx : i + (n :: pre).length = (i + 1) + pre.length := by simp; omega
    rw [hidx, List.cons_append, speaker_loop, speaker_loop, ih]

/-- What one pass of the speaker loop does to the entry of the speaker id at
index `pre.length` of a duplicate-free `m_speaker_names`.  A present entry is
erased on an empty input and overwritten with `convert_utf8_to_game(input)`
on a non-empty one; an absent entry is created from a non-empty input with the
input as typed, without conversion (line 215). -/
theorem speaker_entry_after_pass (font : GameTextFontBank) (input : Nat → Option String)
    (pre post : List String) (name : String) (sp : UMap String)
    (hpre : name ∉ pre) (hpost : name ∉ post) :
    (sp.count name = 0 → edited (input pre.length) "" ≠ "" →
      (speaker_loop font input 0 (pre ++ name :: post) sp).at name =
        some (edited (input pre.length) "")) ∧
    (sp.count name = 0 → edited (input pre.length) "" = "" →
      (speaker_loop font input 0 (pre ++ name :: post) sp).count name = 0) ∧
    (∀ old, sp.at name = some old →
      edited (input pre.length) (font.convert_game_to_utf8 old) = "" →
      (speaker_loop font input 0 (pre ++ name :: post) sp).count name = 0) ∧
    (∀ old, sp.at name = some old →
      edited (input pre.length) (font.convert_game_to_utf8 old) ≠ "" →
      (speaker_loop font input 0 (pre ++ name :: post) sp).at name =
        some (font.convert_utf8_to_game
          (edited (input pre.length) (font.convert_game_to_utf8 old)) true)) := by
  have hsplit := speaker_loop_append font input pre (name :: post) 0 sp
  rw [Nat.zero_add] at hsplit
  have hl1 := speaker_loop_other font input name pre hpre 0 sp
  generalize speaker_loop font input 0 pre sp = sp1 at hsplit hl1
  rw [hsplit, speaker_loop]
  unfold speaker_step
  simp only []
  have hrest := fun sp2 => speaker_loop_other font input name post hpost (pre.length + 1) sp2
  have hc1 : sp1.count name = 0 ↔ sp.count name = 0 := by
    rw [umap_count_eq_zero_lookup, umap_count_eq_zero_lookup, hl1]
  refine ⟨?_, ?_, ?_, ?_⟩
  · intro h0 hne
    have hne2 : (edited (input pre.length) "").isEmpty = false := by
      cases h : (edited (input pre.length) "").isEmpty with
      | false => rfl
      | true => exact absurd ((isEmpty_eq_true_iff _).mp h) hne
    rw [if_pos (hc1.mpr h0)]
    simp only [hne2, Bool.not_false, if_true]
    unfold UMap.at
    rw [hrest]
    unfold UMap.insert
    rw [if_pos (hc1.mpr h0)]
    exact lookup_append_new sp1 name _ (hc1.mpr h0)
  · intro h0 he
    rw [if_pos (hc1.mpr h0)]
    simp only [he]
    rw [umap_count_eq_zero_lookup, if_neg (by decide), hrest, ← umap_count_eq_zero_lookup]
    exact hc1.mpr h0
  · intro old hold he
    have hat : sp1.at name = some old := by unfold UMap.at at hold ⊢; rw [hl1]; exact hold
    have hpos : ¬ sp1.count name = 0 := by
      rw [umap_count_eq_zero_lookup]; unfold UMap.at at hat; rw [hat]; simp
    rw [if_neg hpos]
    simp only [hat, Option.getD_some, he]
    rw [if_pos (by decide), umap_count_eq_zero_lookup, hrest]
    exact lookup_erase_self _ _
  · intro old hold hne
    have hat : sp1.at name = some old := by unfold UMap.at at hold ⊢; rw [hl1]; exact hold
    have hpos : ¬ sp1.count name = 0 := by
      rw [umap_count_eq_zero_lookup]; unfold UMap.at at hat; rw [hat]; simp
    have hne2 : (edited (input pre.length) (font.convert_game_to_utf8 old)).isEmpty = false := by
      cases h : (edited (input pre.length) (font.convert_game_to_utf8 old)).isEmpty with
      | false => rfl
      | true => exact absurd ((isEmpty_eq_true_iff _).mp h) hne
    rw [if_neg hpos]
    simp only [hat, Option.getD_some, hne2]
    rw [if_neg (by decide)]
    unfold UMap.at at hat ⊢
    rw [hrest, lookup_assign, if_pos rfl, hat]
    rfl

/-- C9 at the failing input: the current bank has no entry for the speaker id
"sam", the font's game encoding of "Sam" is "SAM", and the operator types "Sam"
into the field of "sam".  After `draw_speaker_options` the id "sam" maps to
"Sam" as typed, not to "SAM"; the same pass run on the present id "joe" with
the input "Joey" stores the converted "JOEY". -/
theorem new_speaker_stored_unconverted :
    ((draw_speaker_options sample_env_caps sample_editor true
        (fun i => if i = 1 then some "Sam" else none)).bind
          (fun ed => (ed.bank 0).map (fun b => b.speakers))) =
        some [("joe", "JOE"), ("sam", "Sam")] ∧
      (sample_env_caps.get_font_bank 0).convert_utf8_to_game "Sam" true = "SAM" ∧
      ((draw_speaker_options sample_env_caps sample_editor true
        (fun i => if i = 0 then some "Joey" else none)).bind
          (fun ed => (ed.bank 0).map (fun b => b.speakers))) =
        some [("joe", "JOEY")] := by
  decide

/-! ## `draw_all_scenes`: one iteration of the scene loop -/

theorem scene_step_hidden (env : Env) (base : Bool) (inp : String → SceneInput)
    (st : AllScenesState) (name : String) (scene : Subtitle2Scene) (cb : GameSubtitle2Bank)
    (hcb : st.ed.bank st.ed.m_current_language = some cb)
    (hvis : scene_visible st.ed base cb.scenes name = false) :
    scene_step env base inp st name scene = some st := by
  unfold scene_step
  simp only []
  cases base with
  | false =>
    have hf : filtered_out st.ed name = true := by simpa [scene_visible] using hvis
    simp [hf]
  | true =>
    rw [if_pos rfl, is_scene_in_current_lang_eq st.ed cb hcb]
    by_cases hc : cb.scenes.count name > 0
    · simp [hc]
    · have hc0 : cb.scenes.count name = 0 := by omega
      have hf : filtered_out st.ed name = true := by simpa [scene_visible, hc0] using hvis
      simp [hc, hf]

theorem scene_step_visible (env : Env) (base : Bool) (inp : String → SceneInput)
    (st : AllScenesState) (name : String) (scene : Subtitle2Scene) (cb : GameSubtitle2Bank)
    (hcb : st.ed.bank st.ed.m_current_language = some cb)
    (hvis : scene_visible st.ed base cb.scenes name = true) :
    scene_step env base inp st name scene =
      if (inp name).tree_open then
        match (if base && (inp name).copy_from_base then
            copy_to_current (if select_pressed st.ed base (inp name) name then
              st.ed.select (listed_language st.ed base) name else st.ed) name scene
          else some (if select_pressed st.ed base (inp name) name then
              st.ed.select (listed_language st.ed base) name else st.ed)) with
        | none => none
        | some ed2 =>
          scene_node_tail env (inp name) ed2 (listed_language st.ed base) name scene
            st.to_delete (st.shown ++ [name])
      else some { ed := st.ed, to_delete := st.to_delete, shown := st.shown ++ [name] } := by
  have hf : filtered_out st.ed name = false := by
    cases h : filtered_out st.ed name with
    | false => rfl
    | true => simp [scene_visible, h] at hvis
  unfold scene_step
  simp only []
  cases base with
  | false =>
    simp only [hf, select_pressed]
    rfl
  | true =>
    have hc0 : ¬ cb.scenes.count name > 0 := by
      intro hc
      have : cb.scenes.count name ≠ 0 := by omega
      simp [scene_visible, this] at hvis
    rw [if_pos rfl, is_scene_in_current_lang_eq st.ed cb hcb]
    simp only [hc0, decide_False, hf, select_pressed]
    rfl

@[simp] theorem set_bank_current_scene (ed : Subtitle2Editor) (l : Int) (b : GameSubtitle2Bank) :
    (ed.set_bank l b).m_current_scene = ed.m_current_scene := rfl

@[simp] theorem set_bank_current_scene_name (ed : Subtitle2Editor) (l : Int)
    (b : GameSubtitle2Bank) :
    (ed.set_bank l b).m_current_scene_name = ed.m_current_scene_name := rfl

theorem umap_count_eq {V : Type} (m : UMap V) (k : String) :
    m.count k = if k ∈ m.map Prod.fst then 1 else 0 := by
  by_cases h : k ∈ m.map Prod.fst
  · have := (umap_count_pos_iff m k).mpr h
    have hle : m.count k ≤ 1 := by unfold UMap.count; split <;> omega
    rw [if_pos h]; omega
  · rw [if_neg h]; exact (umap_count_eq_zero_iff m k).mpr h

theorem umap_count_assign {V : Type} (m : UMap V) (k : String) (v : V) (n : String) :
    (m.assign k v).count n = m.count n := by
  rw [umap_count_eq, umap_count_eq, umap_keys_assign]

theorem scene_node_tail_facts (env : Env) (I : SceneInput) (ed2 : Subtitle2Editor)
    (listed : Int) (name : String) (scene : Subtitle2Scene) (to_delete shown : List String)
    (cb2 lb2 : GameSubtitle2Bank)
    (hcb2 : ed2.bank ed2.m_current_language = some cb2)
    (hlb2 : ed2.bank listed = some lb2) :
    ∃ st1, scene_node_tail env I ed2 listed name scene to_delete shown = some st1 ∧
      SameSettings ed2 st1.ed ∧
      (∃ cb3, st1.ed.bank ed2.m_current_language = some cb3 ∧
        ∀ n, cb3.scenes.count n = cb2.scenes.count n) ∧
      (∃ lb3, st1.ed.bank listed = some lb3 ∧
        lb3.scenes.map Prod.fst = lb2.scenes.map Prod.fst) ∧
      st1.shown = shown ∧
      st1.to_delete = (if I.delete then set_insert to_delete name else to_delete) ∧
      (st1.ed.m_current_scene, st1.ed.m_current_scene_name) =
        (if I.delete = true ∧
            (ed2.m_current_scene = some (listed, name) ∨ name = ed2.m_current_scene_name)
          then (none, "") else (ed2.m_current_scene, ed2.m_current_scene_name)) := by
  have hdraw := draw_subtitle_options_eq env ed2 scene false I.options ed2 scene.lines cb2
    (by simp) hcb2
  have hwrite : ∀ scene1, write_scene ed2 listed name scene1 =
      some (ed2.set_bank listed { lb2 with scenes := lb2.scenes.assign name scene1 }) := by
    intro scene1; simp [write_scene, hlb2]
  have hcur : ∀ scene1, ∃ cb3,
      (ed2.set_bank listed { lb2 with scenes := lb2.scenes.assign name scene1 }).bank
        ed2.m_current_language = some cb3 ∧ ∀ n, cb3.scenes.count n = cb2.scenes.count n := by
    intro scene1
    by_cases hl : ed2.m_current_language = listed
    · have hsame : lb2 = cb2 := by
        rw [hl] at hcb2; rw [hcb2] at hlb2; exact (Option.some.inj hlb2).symm
      subst hsame
      refine ⟨{ lb2 with scenes := lb2.scenes.assign name scene1 }, ?_,
        fun n => umap_count_assign lb2.scenes name scene1 n⟩
      rw [hl]
      exact bank_set_bank_same ed2 listed _ lb2 hlb2
    · exact ⟨cb2, by rw [bank_set_bank_other ed2 listed _ _ hl]; exact hcb2, fun _ => rfl⟩
  have hlst : ∀ scene1, ∃ lb3,
      (ed2.set_bank listed { lb2 with scenes := lb2.scenes.assign name scene1 }).bank listed =
        some lb3 ∧ lb3.scenes.map Prod.fst = lb2.scenes.map Prod.fst := by
    intro scene1
    exact ⟨_, bank_set_bank_same ed2 listed _ lb2 hlb2, umap_keys_assign _ _ _⟩
  unfold scene_node_tail
  simp only [hdraw, hwrite]
  cases hdel : I.delete with
  | false =>
    exact ⟨_, rfl, ⟨rfl, rfl, rfl, rfl⟩, hcur _, hlst _, rfl, by simp, by simp⟩
  | true =>
    simp only [if_true, set_bank_current_scene, set_bank_current_scene_name]
    by_cases hm : ed2.m_current_scene = some (listed, name) ∨ name = ed2.m_current_scene_name
    · rw [if_pos hm, if_pos ⟨trivial, hm⟩]
      exact ⟨_, rfl, ⟨rfl, rfl, rfl, rfl⟩, hcur _, hlst _, rfl, rfl, rfl⟩
    · rw [if_neg hm, if_neg (fun h => hm h.2)]
      exact ⟨_, rfl, ⟨rfl, rfl, rfl, rfl⟩, hcur _, hlst _, rfl, rfl, rfl⟩

theorem copy_facts (base : Bool) (copy : Bool) (ed1 : Subtitle2Editor) (listed : Int)
    (name : String) (scene : Subtitle2Scene) (cb lb : GameSubtitle2Bank)
    (hcb : ed1.bank ed1.m_current_language = some cb)
    (hlb : ed1.bank listed = some lb)
    (h0 : base = true → cb.scenes.count name = 0)
    (hmem : lb.scenes.count name > 0) :
    ∃ ed2, (if base && copy then copy_to_current ed1 name scene else some ed1) = some ed2 ∧
      SameSettings ed1 ed2 ∧
      ed2.m_current_scene = ed1.m_current_scene ∧
      ed2.m_current_scene_name = ed1.m_current_scene_name ∧
      (∃ cb2, ed2.bank ed1.m_current_language = some cb2 ∧
        ∀ n, n ≠ name → cb2.scenes.count n = cb.scenes.count n) ∧
      ed2.bank listed = some lb := by
  cases hbc : (base && copy) with
  | false =>
    exact ⟨ed1, by simp, ⟨rfl, rfl, rfl, rfl⟩, rfl, rfl, ⟨cb, hcb, fun _ _ => rfl⟩, hlb⟩
  | true =>
    have hbase : base = true := by cases base <;> simp_all
    have hc0 := h0 hbase
    have hne : listed ≠ ed1.m_current_language := by
      intro h
      rw [h, hcb] at hlb
      have : cb = lb := Option.some.inj hlb
      subst this
      omega
    have hadd : cb.add_scene name scene =
        some { cb with scenes := cb.scenes.insert name scene } := by
      simp [GameSubtitle2Bank.add_scene, hc0]
    refine ⟨ed1.set_bank ed1.m_current_language { cb with scenes := cb.scenes.insert name scene },
      ?_, ⟨rfl, rfl, rfl, rfl⟩, rfl, rfl, ⟨_, bank_set_bank_same ed1 _ _ cb hcb, ?_⟩, ?_⟩
    · simp [copy_to_current, hcb, hadd]
    · intro n hn
      unfold UMap.count
      rw [lookup_insert_other cb.scenes n name scene hn]
    · rw [bank_set_bank_other ed1 _ _ _ hne]; exact hlb

theorem scene_step_facts (env : Env) (base : Bool) (inp : String → SceneInput)
    (st : AllScenesState) (name : String) (scene : Subtitle2Scene) (cb lb : GameSubtitle2Bank)
    (hcb : st.ed.bank st.ed.m_current_language = some cb)
    (hlb : st.ed.bank (listed_language st.ed base) = some lb)
    (hmem : lb.scenes.count name > 0) :
    ∃ st1, scene_step env base inp st name scene = some st1 ∧
      StepFacts base inp st st1 name cb lb := by
  cases hvis : scene_visible st.ed base cb.scenes name with
  | false =>
    refine ⟨st, scene_step_hidden env base inp st name scene cb hcb hvis, ?_⟩
    exact { current_language := rfl, base_language := rfl, filter := rfl,
            filter_placeholder := rfl, current_bank := ⟨cb, hcb, fun _ _ => rfl⟩,
            listed_bank := ⟨lb, hlb, rfl⟩, shown := by simp [hvis],
            to_delete := by simp [hvis], selection := by simp [hvis] }
  | true =>
    rw [scene_step_visible env base inp st name scene cb hcb hvis]
    cases hopen : (inp name).tree_open with
    | false =>
      refine ⟨{ ed := st.ed, to_delete := st.to_delete, shown := st.shown ++ [name] },
        by simp, ?_⟩
      exact { current_language := rfl, base_language := rfl, filter := rfl,
              filter_placeholder := rfl, current_bank := ⟨cb, hcb, fun _ _ => rfl⟩,
              listed_bank := ⟨lb, hlb, rfl⟩, shown := by simp [hvis],
              to_delete := by simp [hvis, hopen], selection := by simp [hvis, hopen] }
    | true =>
      have h0 : base = true → cb.scenes.count name = 0 := by
        intro hb
        by_contra hc
        simp [scene_visible, hb, hc] at hvis
      obtain ⟨ed1, hed1, hb1, hs1, hsel1⟩ : ∃ ed1 : Subtitle2Editor,
          (if select_pressed st.ed base (inp name) name then
            st.ed.select (listed_language st.ed base) name else st.ed) = ed1 ∧
          (∀ l, ed1.bank l = st.ed.bank l) ∧ SameSettings st.ed ed1 ∧
          (ed1.m_current_scene, ed1.m_current_scene_name) =
            (if select_pressed st.ed base (inp name) name then
              (some (listed_language st.ed base, name), name)
            else (st.ed.m_current_scene, st.ed.m_current_scene_name)) := by
        cases hsel : select_pressed st.ed base (inp name) name with
        | false => exact ⟨st.ed, by simp, fun _ => rfl, ⟨rfl, rfl, rfl, rfl⟩, by simp⟩
        | true =>
          exact ⟨st.ed.select (listed_language st.ed base) name, by simp, fun _ => rfl,
            ⟨rfl, rfl, rfl, rfl⟩, by simp [Subtitle2Editor.select]⟩
      rw [hed1]
      have hcb1 : ed1.bank ed1.m_current_language = some cb := by
        rw [hb1, hs1.current_language]; exact hcb
      have hlb1 : ed1.bank (listed_language st.ed base) = some lb := by rw [hb1]; exact hlb
      obtain ⟨ed2, hcopy, hs2, hp2, hn2, ⟨cb2, hcb2, hcount2⟩, hlb2⟩ :=
        copy_facts base (inp name).copy_from_base ed1 (listed_language st.ed base) name scene
          cb lb hcb1 hlb1 h0 hmem
      rw [hcopy]
      have hcb2' : ed2.bank ed2.m_current_language = some cb2 := by
        rw [hs2.current_language]; exact hcb2
      obtain ⟨st1, htail, hs3, ⟨cb3, hcb3, hcount3⟩, ⟨lb3, hlb3, hkeys3⟩, hshown, hdel, hsel3⟩ :=
        scene_node_tail_facts env (inp name) ed2 (listed_language st.ed base) name scene
          st.to_delete (st.shown ++ [name]) cb2 lb hcb2' hlb2
      refine ⟨st1, by simpa using htail, ?_⟩
      have hl2 : ed2.m_current_language = st.ed.m_current_language := by
        rw [hs2.current_language, hs1.current_language]
      refine { current_language := ?_, base_language := ?_, filter := ?_,
               filter_placeholder := ?_, current_bank := ?_, listed_bank := ?_,
               shown := ?_, to_delete := ?_, selection := ?_ }
      · rw [hs3.current_language, hl2]
      · rw [hs3.base_language, hs2.base_language, hs1.base_language]
      · rw [hs3.filter, hs2.filter, hs1.filter]
      · rw [hs3.filter_placeholder, hs2.filter_placeholder, hs1.filter_placeholder]
      · refine ⟨cb3, by rw [← hl2]; exact hcb3, fun n hn => ?_⟩
        rw [hcount3, hcount2 n hn]
      · exact ⟨lb3, hlb3, hkeys3⟩
      · rw [hshown]; simp [hvis]
      · rw [hdel]; simp [hvis, hopen]
      · rw [hsel3]
        have hp1 := congrArg Prod.fst hsel1
        have hn1 := congrArg Prod.snd hsel1
        simp only [] at hp1 hn1
        rw [hp2, hn2, hp1, hn1]
        simp only [hvis, hopen, Bool.and_self, if_true, selection_after]

/-! ## `draw_all_scenes`: the loop invariant -/

theorem mem_set_insert (s : List String) (name n : String) :
    n ∈ set_insert s name ↔ n = name ∨ n ∈ s := by
  unfold set_insert
  split
  · rename_i h
    constructor
    · exact Or.inr
    · rintro (rfl | h2)
      · exact h
      · exact h2
  · simp

theorem scene_visible_congr (a b : Subtitle2Editor) (base : Bool)
    (m1 m2 : UMap Subtitle2Scene) (name : String) (hs : SameSettings a b)
    (hc : m2.count name = m1.count name) :
    scene_visible b base m2 name = scene_visible a base m1 name := by
  unfold scene_visible filtered_out
  rw [hs.filter, hs.filter_placeholder, hc]

theorem selection_origin_step (inp : String → SceneInput) (listed : Int)
    (p0 : Option (Int × String)) (nm0 : String) (to_delete : List String)
    (p : Option (Int × String)) (nm : String) (name : String) (sel : Bool)
    (hsel : sel = true → (inp name).select_as_current = true)
    (hfresh : name ∉ to_delete)
    (h : SelectionOrigin inp listed p0 nm0 to_delete p nm) :
    SelectionOrigin inp listed p0 nm0
      (if (inp name).delete then set_insert to_delete name else to_delete)
      (selection_after listed name sel (inp name).delete (p, nm)).1
      (selection_after listed name sel (inp name).delete (p, nm)).2 := by
  unfold selection_after
  cases hdel : (inp name).delete with
  | false =>
    simp only [Bool.false_eq_true, false_and, if_false]
    cases hs : sel with
    | false => simpa using h
    | true =>
      exact Or.inr (Or.inr ⟨name, hsel hs, rfl, rfl, hfresh⟩)
  | true =>
    simp only [true_and, if_true]
    cases hs : sel with
    | true => simp [SelectionOrigin]
    | false =>
      simp only [Bool.false_eq_true, if_false]
      by_cases hm : p = some (listed, name) ∨ name = nm
      · rw [if_pos hm]; exact Or.inl ⟨rfl, rfl⟩
      · rw [if_neg hm]
        have hp : p ≠ some (listed, name) := fun hh => hm (Or.inl hh)
        have hn : name ≠ nm := fun hh => hm (Or.inr hh)
        rcases h with h1 | ⟨h2p, h2n, h2a, h2b⟩ | ⟨n, h3a, h3b, h3c, h3d⟩
        · exact Or.inl h1
        · refine Or.inr (Or.inl ⟨h2p, h2n, ?_, ?_⟩)
          · rw [mem_set_insert]
            rintro (hh | hh)
            · exact hn (by rw [h2n, hh])
            · exact h2a hh
          · intro n hn2
            rw [mem_set_insert] at hn2
            rcases hn2 with rfl | hn2
            · rw [← h2p]; exact hp
            · exact h2b n hn2
        · refine Or.inr (Or.inr ⟨n, h3a, h3b, h3c, ?_⟩)
          rw [mem_set_insert]
          rintro (hh | hh)
          · exact hn (by rw [h3c, hh])
          · exact h3d hh

theorem loop_inv_step (env : Env) (base : Bool) (inp : String → SceneInput)
    (ed0 : Subtitle2Editor) (cb0 lb0 : GameSubtitle2Bank) (visited : List String)
    (st : AllScenesState) (name : String) (scene : Subtitle2Scene)
    (hinv : LoopInv base inp ed0 cb0 lb0 visited st)
    (hfresh : name ∉ visited) (hmem : name ∈ lb0.scenes.map Prod.fst) :
    ∃ st1, scene_step env base inp st name scene = some st1 ∧
      LoopInv base inp ed0 cb0 lb0 (visited ++ [name]) st1 := by
  obtain ⟨cb, hcb, hcount⟩ := hinv.current_bank
  obtain ⟨lb, hlb, hkeys⟩ := hinv.listed_bank
  have hlang : listed_language st.ed base = listed_language ed0 base := by
    unfold listed_language
    rw [hinv.settings.current_language, hinv.settings.base_language]
  have hcb' : st.ed.bank st.ed.m_current_language = some cb := by
    rw [hinv.settings.current_language]; exact hcb
  have hlb' : st.ed.bank (listed_language st.ed base) = some lb := by rw [hlang]; exact hlb
  have hmem' : lb.scenes.count name > 0 := by rw [umap_count_pos_iff, hkeys]; exact hmem
  obtain ⟨st1, hstep, hf⟩ := scene_step_facts env base inp st name scene cb lb hcb' hlb' hmem'
  have hvis : scene_visible st.ed base cb.scenes name =
      scene_visible ed0 base cb0.scenes name :=
    scene_visible_congr ed0 st.ed base cb0.scenes cb.scenes name hinv.settings
      (hcount name hfresh)
  have hnd : name ∉ st.to_delete := fun h => hfresh ((hinv.to_delete name).mp h).1
  refine ⟨st1, hstep, ?_⟩
  refine { settings := ?_, current_bank := ?_, listed_bank := ?_, shown := ?_,
           to_delete := ?_, selection := ?_ }
  · exact ⟨by rw [hf.current_language, hinv.settings.current_language],
      by rw [hf.base_language, hinv.settings.base_language],
      by rw [hf.filter, hinv.settings.filter],
      by rw [hf.filter_placeholder, hinv.settings.filter_placeholder]⟩
  · obtain ⟨cb1, hcb1, hc1⟩ := hf.current_bank
    refine ⟨cb1, by rw [← hinv.settings.current_language]; exact hcb1, fun n hn => ?_⟩
    have hn1 : n ∉ visited := fun h => hn (List.mem_append_left _ h)
    have hn2 : n ≠ name := fun h => hn (by simp [h])
    rw [hc1 n hn2, hcount n hn1]
  · obtain ⟨lb1, hlb1, hk1⟩ := hf.listed_bank
    exact ⟨lb1, by rw [← hlang]; exact hlb1, by rw [hk1, hkeys]⟩
  · rw [hf.shown, hvis, hinv.shown, List.filter_append]
    cases hv : scene_visible ed0 base cb0.scenes name <;> simp [List.filter_cons, hv]
  · intro n
    rw [hf.to_delete, hvis]
    by_cases hc : (scene_visible ed0 base cb0.scenes name && (inp name).tree_open &&
        (inp name).delete) = true
    · rw [if_pos hc, mem_set_insert, hinv.to_delete n]
      simp only [Bool.and_eq_true] at hc
      constructor
      · rintro (rfl | ⟨h1, h2⟩)
        · exact ⟨by simp, hc.1.1, hc.1.2, hc.2⟩
        · exact ⟨List.mem_append_left _ h1, h2⟩
      · rintro ⟨h1, h2⟩
        rcases List.mem_append.mp h1 with h1 | h1
        · exact Or.inr ⟨h1, h2⟩
        · exact Or.inl (by simpa using h1)
    · rw [if_neg hc, hinv.to_delete n]
      constructor
      · rintro ⟨h1, h2⟩
        exact ⟨List.mem_append_left _ h1, h2⟩
      · rintro ⟨h1, h2⟩
        rcases List.mem_append.mp h1 with h1 | h1
        · exact ⟨h1, h2⟩
        · have : n = name := by simpa using h1
          subst this
          exact absurd (by simp [h2.1, h2.2.1, h2.2.2]) hc
  · have hp := congrArg Prod.fst hf.selection
    have hn := congrArg Prod.snd hf.selection
    simp only [] at hp hn
    rw [hp, hn, hf.to_delete, hlang]
    by_cases hvo : (scene_visible st.ed base cb.scenes name && (inp name).tree_open) = true
    · simp only [hvo, if_true, Bool.true_and]
      refine selection_origin_step inp _ _ _ _ _ _ name _ ?_ hnd hinv.selection
      intro hs
      simp only [select_pressed, Bool.and_eq_true] at hs
      exact hs.2
    · have hvo2 : (scene_visible st.ed base cb.scenes name && (inp name).tree_open) = false := by
        simpa using hvo
      simp only [hvo2, Bool.false_and, Bool.false_eq_true, if_false]
      exact hinv.selection

theorem loop_inv_run (env : Env) (base : Bool) (inp : String → SceneInput)
    (ed0 : Subtitle2Editor) (cb0 lb0 : GameSubtitle2Bank) (l : List (String × Subtitle2Scene)) :
    ∀ (visited : List String) (st : AllScenesState),
      LoopInv base inp ed0 cb0 lb0 visited st →
      (visited ++ l.map Prod.fst).Nodup →
      (∀ n ∈ l.map Prod.fst, n ∈ lb0.scenes.map Prod.fst) →
      ∃ st1, scenes_loop env base inp l st = some st1 ∧
        LoopInv base inp ed0 cb0 lb0 (visited ++ l.map Prod.fst) st1 := by
  induction l with
  | nil =>
    intro visited st hinv _ _
    exact ⟨st, rfl, by simpa using hinv⟩
  | cons p rest ih =>
    intro visited st hinv hnd hmem
    obtain ⟨name, scene⟩ := p
    have hfresh : name ∉ visited := by
      intro h
      have := List.nodup_append.mp hnd
      exact this.2.2 h (by simp)
    obtain ⟨st1, hstep, hinv1⟩ := loop_inv_step env base inp ed0 cb0 lb0 visited st name scene
      hinv hfresh (hmem name (by simp))
    have hnd1 : ((visited ++ [name]) ++ rest.map Prod.fst).Nodup := by
      simpa [List.append_assoc] using hnd
    obtain ⟨st2, hloop, hinv2⟩ := ih (visited ++ [name]) st1 hinv1 hnd1
      (fun n hn => hmem n (by simp [hn]))
    refine ⟨st2, ?_, by simpa [List.append_assoc] using hinv2⟩
    simp only [scenes_loop, hstep]
    exact hloop

/-! ## `draw_all_scenes`: the pass as a whole -/

theorem keys_foldl_erase {V : Type} (ds : List String) :
    ∀ m : UMap V, (ds.foldl UMap.erase m).map Prod.fst =
      (m.map Prod.fst).filter (fun n => decide (n ∉ ds)) := by
  induction ds with
  | nil => intro m; simp
  | cons d rest ih =>
    intro m
    rw [List.foldl_cons, ih, umap_keys_erase, List.filter_filter]
    congr 1
    funext n
    by_cases h1 : n = d <;> by_cases h2 : n ∈ rest <;> simp [h1, h2]

theorem scene_visible_iff (ed : Subtitle2Editor) (base : Bool) (m : UMap Subtitle2Scene)
    (n : String) :
    scene_visible ed base m n = true ↔
      (ed.m_filter = "" ∨ ed.m_filter = ed.m_filter_placeholder ∨ ed.m_filter.data <:+: n.data) ∧
        (base = false ∨ m.count n = 0) := by
  unfold scene_visible filtered_out string_contains
  have he : ed.m_filter.isEmpty = true ↔ ed.m_filter = "" := isEmpty_eq_true_iff _
  by_cases h1 : ed.m_filter = ""
  · cases base <;> simp [h1]
  · have he2 : ed.m_filter.isEmpty = false := by
      cases h : ed.m_filter.isEmpty with
      | false => rfl
      | true => exact absurd (he.mp h) h1
    by_cases h2 : ed.m_filter = ed.m_filter_placeholder
    · cases base <;> simp [h1, he2, h2]
    · by_cases h3 : ed.m_filter.data <:+: n.data
      · cases base <;> simp [h1, he2, h2, h3]
      · cases base <;> simp [h1, he2, h2, h3]

theorem draw_all_scenes_run (env : Env) (ed : Subtitle2Editor) (base : Bool)
    (inp : String → SceneInput) (cb lb : GameSubtitle2Bank)
    (hcb : ed.bank ed.m_current_language = some cb)
    (hlb : ed.bank (listed_language ed base) = some lb)
    (hnd : (lb.scenes.map Prod.fst).Nodup) :
    ∃ st lb1, LoopInv base inp ed cb lb (lb.scenes.map Prod.fst) st ∧
      st.ed.bank (listed_language ed base) = some lb1 ∧
      lb1.scenes.map Prod.fst = lb.scenes.map Prod.fst ∧
      draw_all_scenes env ed base inp =
        some (st.ed.set_bank (listed_language ed base)
          { lb1 with scenes := st.to_delete.foldl UMap.erase lb1.scenes },
          st.to_delete, st.shown) := by
  have hinit : LoopInv base inp ed cb lb [] { ed := ed, to_delete := [], shown := [] } :=
    { settings := ⟨rfl, rfl, rfl, rfl⟩
      current_bank := ⟨cb, hcb, fun _ _ => rfl⟩
      listed_bank := ⟨lb, hlb, rfl⟩
      shown := rfl
      to_delete := by intro n; simp
      selection := Or.inr (Or.inl ⟨rfl, rfl, by simp, by simp⟩) }
  obtain ⟨st, hloop, hinv⟩ := loop_inv_run env base inp ed cb lb lb.scenes [] _ hinit
    (by simpa using hnd) (fun n hn => hn)
  rw [List.nil_append] at hinv
  obtain ⟨lb1, hlb1, hkeys⟩ := hinv.listed_bank
  refine ⟨st, lb1, hinv, hlb1, hkeys, ?_⟩
  unfold draw_all_scenes
  simp only [hlb, hloop, hlb1]

/-- C8. A pass of `draw_all_scenes` over a bank (with distinct scene names)
returns, and the scenes it shows are, in the bank's order, exactly the scenes
of the listed bank for which (the filter is empty, or is the placeholder, or
occurs in the name as a substring) and (the listing is not the base-language
listing, or the name is absent from the current-language bank); with an empty
or placeholder filter the current-language listing shows every scene. -/
theorem listed_scenes_exact (env : Env) (ed : Subtitle2Editor) (base : Bool)
    (inp : String → SceneInput) (cb lb : GameSubtitle2Bank)
    (hcb : ed.bank ed.m_current_language = some cb)
    (hlb : ed.bank (listed_language ed base) = some lb)
    (hnd : (lb.scenes.map Prod.fst).Nodup) :
    ∃ ed1 del shown, draw_all_scenes env ed base inp = some (ed1, del, shown) ∧
      shown = (lb.scenes.map Prod.fst).filter (scene_visible ed base cb.scenes) ∧
      (∀ n, n ∈ shown ↔ n ∈ lb.scenes.map Prod.fst ∧
        (ed.m_filter = "" ∨ ed.m_filter = ed.m_filter_placeholder ∨
          ed.m_filter.data <:+: n.data) ∧
        (base = false ∨ cb.scenes.count n = 0)) ∧
      (base = false → (ed.m_filter = "" ∨ ed.m_filter = ed.m_filter_placeholder) →
        shown = lb.scenes.map Prod.fst) := by
  obtain ⟨st, lb1, hinv, _, _, hdraw⟩ := draw_all_scenes_run env ed base inp cb lb hcb hlb hnd
  refine ⟨_, _, _, hdraw, hinv.shown, ?_, ?_⟩
  · intro n
    rw [hinv.shown, List.mem_filter, scene_visible_iff]
  · intro hb hf
    rw [hinv.shown, List.filter_eq_self]
    intro n _
    rw [scene_visible_iff]
    refine ⟨?_, Or.inl hb⟩
    rcases hf with hf | hf
    · exact Or.inl hf
    · exact Or.inr (Or.inl hf)

theorem listed_scenes_exact_witness :
    sample_editor.bank sample_editor.m_current_language = some sample_bank ∧
      sample_editor.bank (listed_language sample_editor true) = some sample_base_bank ∧
      (sample_base_bank.scenes.map Prod.fst).Nodup ∧
      ∃ ed1 del shown,
        draw_all_scenes sample_env sample_editor true (fun _ =>
          { tree_open := true, select_as_current := false, copy_from_base := true,
            options := { form := idle_form, line := fun _ => idle_line },
            delete := false }) = some (ed1, del, shown) ∧
        shown = ["finale"] :=
  ⟨rfl, rfl, by decide,
    let ⟨ed1, del, shown, h, hs, _⟩ := listed_scenes_exact sample_env sample_editor true (fun _ =>
        { tree_open := true, select_as_current := false, copy_from_base := true,
          options := { form := idle_form, line := fun _ => idle_line },
          delete := false }) sample_bank sample_base_bank rfl rfl (by decide)
    ⟨ed1, del, shown, h, hs.trans (by decide)⟩⟩

/-- C7, amended. A pass of `draw_all_scenes` over a bank (with distinct scene
names) returns.  `del` is the set of names on which "Delete" is pressed (the
scenes shown, open, with the button pressed).  Afterwards no name of `del` is a
scene of the listed bank and every other scene of that bank is still one.  The
selection afterwards is reset, or is the one from before the pass and then
concerns no deleted scene, or was made by a "Select as Current" press of this
pass on a scene not deleted.  So, when the scene selected before (by name or
by pointer) is in `del`, the selection is reset (`m_current_scene` null,
`m_current_scene_name` empty) unless "Select as Current" is pressed in the same
pass; and in every case a non-null selection names no scene of `del`. -/
theorem deleteScene_pass (env : Env) (ed : Subtitle2Editor) (base : Bool)
    (inp : String → SceneInput) (cb lb : GameSubtitle2Bank)
    (hcb : ed.bank ed.m_current_language = some cb)
    (hlb : ed.bank (listed_language ed base) = some lb)
    (hnd : (lb.scenes.map Prod.fst).Nodup) :
    ∃ ed1 del shown lb1, draw_all_scenes env ed base inp = some (ed1, del, shown) ∧
      ed1.bank (listed_language ed base) = some lb1 ∧
      (∀ n, n ∈ del ↔ n ∈ lb.scenes.map Prod.fst ∧ n ∈ shown ∧
        (inp n).tree_open = true ∧ (inp n).delete = true) ∧
      (∀ n ∈ del, lb1.scenes.count n = 0) ∧
      (∀ n, n ∉ del → lb.scenes.count n > 0 → lb1.scenes.count n > 0) ∧
      SelectionOrigin inp (listed_language ed base) ed.m_current_scene ed.m_current_scene_name
        del ed1.m_current_scene ed1.m_current_scene_name ∧
      ((∀ n, (inp n).select_as_current = false) →
        (ed.m_current_scene_name ∈ del ∨
          ∃ n ∈ del, ed.m_current_scene = some (listed_language ed base, n)) →
        ed1.m_current_scene = none ∧ ed1.m_current_scene_name = "") ∧
      (ed1.m_current_scene ≠ none →
        ed1.m_current_scene_name ∉ del ∧
          ∀ n ∈ del, ed1.m_current_scene ≠ some (listed_language ed base, n)) := by
  obtain ⟨st, lb1, hinv, hlb1, hkeys, hdraw⟩ :=
    draw_all_scenes_run env ed base inp cb lb hcb hlb hnd
  have hfinal : (st.ed.set_bank (listed_language ed base)
      { lb1 with scenes := st.to_delete.foldl UMap.erase lb1.scenes }).bank
        (listed_language ed base) =
      some { lb1 with scenes := st.to_delete.foldl UMap.erase lb1.scenes } :=
    bank_set_bank_same st.ed _ _ lb1 hlb1
  have hk : (st.to_delete.foldl UMap.erase lb1.scenes).map Prod.fst =
      (lb.scenes.map Prod.fst).filter (fun n => decide (n ∉ st.to_delete)) := by
    rw [keys_foldl_erase, hkeys]
  have hsel := hinv.selection
  refine ⟨_, _, _, _, hdraw, hfinal, ?_, ?_, ?_, hsel, ?_, ?_⟩
  · intro n
    rw [hinv.to_delete n, hinv.shown, List.mem_filter]
    constructor
    · rintro ⟨h1, h2, h3, h4⟩; exact ⟨h1, ⟨h1, h2⟩, h3, h4⟩
    · rintro ⟨h1, ⟨_, h2⟩, h3, h4⟩; exact ⟨h1, h2, h3, h4⟩
  · intro n hn
    rw [umap_count_eq_zero_iff]
    show n ∉ (st.to_delete.foldl UMap.erase lb1.scenes).map Prod.fst
    rw [hk, List.mem_filter]
    rintro ⟨_, h⟩
    exact (of_decide_eq_true h) hn
  · intro n hn hpos
    rw [umap_count_pos_iff] at hpos ⊢
    show n ∈ (st.to_delete.foldl UMap.erase lb1.scenes).map Prod.fst
    rw [hk, List.mem_filter]
    exact ⟨hpos, decide_eq_true hn⟩
  · intro hP hdel
    rcases hsel with h1 | ⟨_, _, h2a, h2b⟩ | ⟨n, h3, _⟩
    · exact h1
    · rcases hdel with hd | ⟨n, hn, hp⟩
      · exact absurd hd h2a
      · exact absurd hp (h2b n hn)
    · rw [hP n] at h3; exact absurd h3 (by decide)
  · intro hne
    rcases hsel with ⟨h1, _⟩ | ⟨h2p, h2n, h2a, h2b⟩ | ⟨n, _, h3p, h3n, h3d⟩
    · exact absurd h1 hne
    · exact ⟨by rw [show (st.ed.set_bank (listed_language ed base)
          { lb1 with scenes := st.to_delete.foldl UMap.erase lb1.scenes }).m_current_scene_name =
            ed.m_current_scene_name from h2n]; exact h2a,
        fun m hm => by
          rw [show (st.ed.set_bank (listed_language ed base)
            { lb1 with scenes := st.to_delete.foldl UMap.erase lb1.scenes }).m_current_scene =
              ed.m_current_scene from h2p]
          exact h2b m hm⟩
    · refine ⟨?_, fun m hm => ?_⟩
      · rw [show (st.ed.set_bank (listed_language ed base)
          { lb1 with scenes := st.to_delete.foldl UMap.erase lb1.scenes }).m_current_scene_name =
            n from h3n]
        exact h3d
      · rw [show (st.ed.set_bank (listed_language ed base)
          { lb1 with scenes := st.to_delete.foldl UMap.erase lb1.scenes }).m_current_scene =
            some (listed_language ed base, n) from h3p]
        intro heq
        have : n = m := by
          have := Option.some.inj heq
          exact (Prod.mk.inj this).2
        exact h3d (this ▸ hm)

theorem deleteScene_pass_witness :
    sample_editor.bank sample_editor.m_current_language = some sample_bank ∧
      sample_editor.bank (listed_language sample_editor false) = some sample_bank ∧
      (sample_bank.scenes.map Prod.fst).Nodup ∧
      ∃ ed1 del shown lb1,
        draw_all_scenes sample_env sample_editor false (fun n =>
          { tree_open := true, select_as_current := false, copy_from_base := false,
            options := { form := idle_form, line := fun _ => idle_line },
            delete := decide (n = "intro") }) = some (ed1, del, shown) ∧
        ed1.bank (listed_language sample_editor false) = some lb1 ∧
        (∀ n ∈ del, lb1.scenes.count n = 0) ∧
        (ed1.m_current_scene ≠ none → ed1.m_current_scene_name ∉ del) :=
  ⟨rfl, rfl, by decide,
    let ⟨ed1, del, shown, lb1, h, hb, _, hA, _, _, _, hD⟩ :=
      deleteScene_pass sample_env sample_editor false (fun n =>
        { tree_open := true, select_as_current := false, copy_from_base := false,
          options := { form := idle_form, line := fun _ => idle_line },
          delete := decide (n = "intro") }) sample_bank sample_bank rfl rfl (by decide)
    ⟨ed1, del, shown, lb1, h, hb, hA, fun hne => (hD hne).1⟩⟩

/-- C7, as stated, fails: the sample editor has "intro" selected and lists its
current bank with the scenes "intro" and "outro"; in one pass "Delete" is
pressed on "intro" and "Select as Current" on "outro", which the loop reaches
later.  The selected scene "intro" is among the deleted ones, yet after the
pass the selection is not reset: `m_current_scene` points to "outro". -/
theorem deleteScene_selection_counterexample :
    sample_editor.m_current_scene = some (0, "intro") ∧
      sample_editor.m_current_scene_name = "intro" ∧
      (draw_all_scenes sample_env sample_editor false (fun n =>
        { tree_open := true, select_as_current := decide (n = "outro"), copy_from_base := false,
          options := { form := idle_form, line := fun _ => idle_line },
          delete := decide (n = "intro") })).map
        (fun r => (r.1.m_current_scene, r.1.m_current_scene_name, r.2.1,
          (r.1.bank 0).map (fun b => b.scenes.map Prod.fst))) =
      some (some (0, "outro"), "outro", ["intro"], some ["outro"]) := by
  decide

end Subtitle2
